import Mathlib

/-!
Verification of the HemoclastOnline WebSocket layer
(`backend/app/websocket/connection_manager.py` and the WebSocket part of
`backend/app/main.py`).

The python state is embedded shallowly:

* python `dict` (insertion-ordered, unique keys) becomes an association
  list `Dict κ α` with operations `dlookup` (`d[k]` / `k in d`),
  `dinsert` (`d[k] = v`), `dremove` (`del d[k]`) and `dupdate`
  (`d.update(u)`);
* a `WebSocket` object becomes a record `WS` carrying an identity and an
  `ok` flag: `await websocket.send_text(...)` succeeds exactly when
  `ok = true` and otherwise raises (the deterministic model of a write
  failure);
* I/O is made visible as a trace of events `Ev` (socket accepted, socket
  closed, text sent to a client); exceptions escaping a coroutine are
  modelled by an `Option String` carrying the client id whose write
  raised.
-/

namespace Hemoclast

/-- JSON-like scalar values appearing in message payloads. -/
inductive JVal where
  | str (s : String)
  | num (n : Int)
  | boolean (b : Bool)
deriving DecidableEq

/-- A python `dict`, as an insertion-ordered association list. -/
abbrev Dict (κ α : Type) := List (κ × α)

/-- `d[k]` / `k in d`: first entry with key `k` (keys are unique in every
state built by `dinsert` from the empty dict, mirroring python). -/
def dlookup {κ α : Type} [DecidableEq κ] (k : κ) : Dict κ α → Option α
  | [] => none
  | (k', v) :: d => if k' = k then some v else dlookup k d

/-- `d[k] = v`: replace the value in place if the key exists (python keeps
the original insertion position), otherwise append at the end. -/
def dinsert {κ α : Type} [DecidableEq κ] (k : κ) (v : α) : Dict κ α → Dict κ α
  | [] => [(k, v)]
  | (k', v') :: d => if k' = k then (k, v) :: d else (k', v') :: dinsert k v d

/-- `del d[k]`: drop the (unique) entry with key `k`. -/
def dremove {κ α : Type} [DecidableEq κ] (k : κ) : Dict κ α → Dict κ α
  | [] => []
  | (k', v') :: d => if k' = k then d else (k', v') :: dremove k d

/-- The key list of a dict. -/
def dkeys {κ α : Type} : Dict κ α → List κ := List.map Prod.fst

/-- python `d.update(u)`: write the entries of `u` into `d`, in order. -/
def dupdate {κ α : Type} [DecidableEq κ] (d u : Dict κ α) : Dict κ α :=
  u.foldl (fun acc kv => dinsert kv.1 kv.2 acc) d

/-- A payload dict, e.g. the `data` field of a game message. -/
abbrev Payload := Dict String JVal

/-- A `WebSocket` object: `wid` is the object identity, `ok` tells whether
`send_text` on it succeeds (`ok = false` models a connection whose writes
raise). -/
structure WS where
  wid : Nat
  ok : Bool
deriving DecidableEq

/-- A message on the wire: either a plain text (the legacy broadcast
strings) or a `json.dumps`-serialised dict `\x7b"type": ..., "data": ...\x7d`,
kept structured. -/
inductive OutMsg where
  | raw (s : String)
  | typed (mtype : String) (mdata : Payload)
deriving DecidableEq

/-- Observable I/O events of the server. -/
inductive Ev where
  | accepted (ws : WS)
  | closedConn (ws : WS)
  | sentText (target : String) (ws : WS) (msg : OutMsg)
deriving DecidableEq

/-- The state of `ConnectionManager` (`connection_manager.py`,
`__init__`). -/
structure CMState where
  active_connections : Dict String WS
  player_data : Dict String Payload
  guild_channels : Dict Int (List String)
  city_presence : List String
deriving DecidableEq

/-- The freshly constructed manager: everything empty. -/
def initState : CMState :=
  { active_connections := [], player_data := [], guild_channels := [],
    city_presence := [] }

namespace ConnectionManager

/-- `connect`: `await websocket.accept()` then
`self.active_connections[client_id] = websocket`.  The source contains no
call to `websocket.close()`, so no `Ev.closedConn` event is emitted. -/
def connect (s : CMState) (websocket : WS) (client_id : String) :
    CMState × List Ev :=
  ({ s with active_connections := dinsert client_id websocket s.active_connections },
   [Ev.accepted websocket])

/-- `disconnect`: remove the connection, the player data, every guild
channel membership (`members.remove(client_id)` removes the first
occurrence) and the city presence entry. -/
def disconnect (s : CMState) (client_id : String) : CMState :=
  let active :=
    if (dlookup client_id s.active_connections).isSome then
      dremove client_id s.active_connections
    else s.active_connections
  let pdata :=
    if (dlookup client_id s.player_data).isSome then
      dremove client_id s.player_data
    else s.player_data
  let guilds := s.guild_channels.map fun gm =>
    (gm.1, if client_id ∈ gm.2 then gm.2.erase client_id else gm.2)
  let city :=
    if client_id ∈ s.city_presence then s.city_presence.erase client_id
    else s.city_presence
  { active_connections := active, player_data := pdata,
    guild_channels := guilds, city_presence := city }

/-- `send_personal_message`: if the client is registered, send; there is no
`try`/`except`, so a failing write raises to the caller (`Except.error`
carrying the client id) and nothing is unregistered. -/
def send_personal_message (s : CMState) (message : OutMsg) (client_id : String) :
    Except String (List Ev) :=
  match dlookup client_id s.active_connections with
  | some websocket =>
      if websocket.ok then Except.ok [Ev.sentText client_id websocket message]
      else Except.error client_id
  | none => Except.ok []

/-- One iteration of the `broadcast` loop body: double-check the connection
still exists, try to send, and on failure delete the connection from
`active_connections` (and only from there). -/
def bStep (message : OutMsg) (acc : CMState × List Ev) (p : String × WS) :
    CMState × List Ev :=
  if (dlookup p.1 acc.1.active_connections).isSome then
    if p.2.ok then (acc.1, acc.2 ++ [Ev.sentText p.1 p.2 message])
    else ({ acc.1 with active_connections := dremove p.1 acc.1.active_connections },
          acc.2)
  else acc

/-- `broadcast`: iterate over a copy of `active_connections`; failures are
caught per target and evict the failed connection. -/
def broadcast (s : CMState) (message : OutMsg) : CMState × List Ev :=
  s.active_connections.foldl (bStep message) (s, [])

/-- One iteration of the `broadcast_to_others` loop body: additionally skip
the excluded client. -/
def btoStep (message : OutMsg) (exclude_client_id : String)
    (acc : CMState × List Ev) (p : String × WS) : CMState × List Ev :=
  if p.1 ≠ exclude_client_id ∧ (dlookup p.1 acc.1.active_connections).isSome then
    if p.2.ok then (acc.1, acc.2 ++ [Ev.sentText p.1 p.2 message])
    else ({ acc.1 with active_connections := dremove p.1 acc.1.active_connections },
          acc.2)
  else acc

/-- `broadcast_to_others`: like `broadcast` but skipping
`exclude_client_id`. -/
def broadcast_to_others (s : CMState) (message : OutMsg)
    (exclude_client_id : String) : CMState × List Ev :=
  s.active_connections.foldl (btoStep message exclude_client_id) (s, [])

/-- A `for` loop of `send_personal_message` calls over a list of client
ids: events of the successful sends, and the id of the first failing write
if one raises (the loop then aborts, python exception propagation). -/
def sendEach (s : CMState) (message : OutMsg) :
    List String → List Ev × Option String
  | [] => ([], none)
  | c :: cs =>
      match send_personal_message s message c with
      | Except.ok evs =>
          let r := sendEach s message cs
          (evs ++ r.1, r.2)
      | Except.error e => ([], some e)

/-- `broadcast_to_guild`: loop `send_personal_message` over the channel
members; a raising member aborts the loop and the exception propagates. -/
def broadcast_to_guild (s : CMState) (guild_id : Int) (message : OutMsg) :
    List Ev × Option String :=
  match dlookup guild_id s.guild_channels with
  | some members => sendEach s message members
  | none => ([], none)

/-- `broadcast_to_city`: loop `send_personal_message` over the city
presence list. -/
def broadcast_to_city (s : CMState) (message : OutMsg) :
    List Ev × Option String :=
  sendEach s message s.city_presence

/-- `join_guild_channel`: create the channel if missing, then append the
client unless already a member. -/
def join_guild_channel (s : CMState) (client_id : String) (guild_id : Int) :
    CMState :=
  let channels :=
    if (dlookup guild_id s.guild_channels).isSome then s.guild_channels
    else dinsert guild_id [] s.guild_channels
  match dlookup guild_id channels with
  | some members =>
      if client_id ∈ members then { s with guild_channels := channels }
      else { s with guild_channels := dinsert guild_id (members ++ [client_id]) channels }
  | none => { s with guild_channels := channels }

/-- `leave_guild_channel`: remove the client from the channel if present. -/
def leave_guild_channel (s : CMState) (client_id : String) (guild_id : Int) :
    CMState :=
  match dlookup guild_id s.guild_channels with
  | some members =>
      if client_id ∈ members then
        { s with guild_channels :=
            dinsert guild_id (members.erase client_id) s.guild_channels }
      else s
  | none => s

/-- `join_city`: append unless already present. -/
def join_city (s : CMState) (client_id : String) : CMState :=
  if client_id ∈ s.city_presence then s
  else { s with city_presence := s.city_presence ++ [client_id] }

/-- `leave_city`: remove if present. -/
def leave_city (s : CMState) (client_id : String) : CMState :=
  if client_id ∈ s.city_presence then
    { s with city_presence := s.city_presence.erase client_id }
  else s

/-- `store_player_data`: `self.player_data[client_id] = player_data`. -/
def store_player_data (s : CMState) (client_id : String) (player_data : Payload) :
    CMState :=
  { s with player_data := dinsert client_id player_data s.player_data }

/-- `get_all_players`: a copy of `player_data`. -/
def get_all_players (s : CMState) : Dict String Payload :=
  s.player_data

/-- `get_player_data`: `self.player_data.get(client_id, \x7b\x7d)`. -/
def get_player_data (s : CMState) (client_id : String) : Payload :=
  (dlookup client_id s.player_data).getD []

end ConnectionManager

open ConnectionManager

/-- A decoded game message: `message.get("type")` and
`message.get("data", \x7b\x7d)`. -/
structure GameMessage where
  mtype : Option String
  mdata : Payload
deriving DecidableEq

/-- The dict `\x7b"client_id": client_id, **payload\x7d`: start from the
`client_id` binding and splat the payload over it (a `client_id` key inside
the payload would overwrite the binding, exactly as in python). -/
def withClientId (client_id : String) (payload : Payload) : Payload :=
  dupdate [("client_id", JVal.str client_id)] payload

/-- The dict `\x7b"type": response_type, "data": \x7b"client_id": client_id,
**payload\x7d\x7d` built by `handle_game_message`. -/
def taggedMessage (response_type : String) (client_id : String)
    (payload : Payload) : OutMsg :=
  OutMsg.typed response_type (withClientId client_id payload)

/-- The spawn branch's catch-up loop: for every entry of
`get_all_players()` other than the new client, send that player's record to
the new client; a raising send aborts the loop and propagates. -/
def sendExisting (s : CMState) (client_id : String) (response_type : String) :
    Dict String Payload → List Ev × Option String
  | [] => ([], none)
  | (eid, edata) :: rest =>
      if eid ≠ client_id then
        match send_personal_message s (taggedMessage response_type eid edata) client_id with
        | Except.ok evs =>
            let r := sendExisting s client_id response_type rest
            (evs ++ r.1, r.2)
        | Except.error e => ([], some e)
      else sendExisting s client_id response_type rest

/-- The result of one server-side message handling step: the manager state
left behind, the trace of I/O events, and `some c` when a write to client
`c` raised out of the handler (after the state mutations preceding it). -/
structure HResult where
  state : CMState
  events : List Ev
  raised : Option String
deriving DecidableEq

/-- `handle_game_message` from `main.py`, branch by branch. -/
def handle_game_message (s : CMState) (client_id : String)
    (message : GameMessage) : HResult :=
  let message_type := message.mtype
  if message_type = some "player_spawn" ∨ message_type = some "player_spawn_3d" then
    -- store_player_data happens before any send, so it survives a raise
    let player_data := message.mdata
    let s1 := store_player_data s client_id player_data
    let response_type :=
      if message_type = some "player_spawn_3d" then "player_joined_3d"
      else "player_joined"
    let existing_players := get_all_players s1
    match sendExisting s1 client_id response_type existing_players with
    | (evs1, none) =>
        let r2 := broadcast_to_others s1
          (taggedMessage response_type client_id player_data) client_id
        { state := r2.1, events := evs1 ++ r2.2, raised := none }
    | (evs1, some e) => { state := s1, events := evs1, raised := some e }
  else if message_type = some "player_move" ∨ message_type = some "player_move_3d" then
    -- `if client_id in self.player_data: self.player_data[client_id].update(move_data)`
    let move_data := message.mdata
    let s1 :=
      match dlookup client_id s.player_data with
      | some pd =>
          { s with player_data := dinsert client_id (dupdate pd move_data) s.player_data }
      | none => s
    let response_type :=
      if message_type = some "player_move_3d" then "player_moved_3d"
      else "player_moved"
    let r2 := broadcast_to_others s1
      (taggedMessage response_type client_id move_data) client_id
    { state := r2.1, events := r2.2, raised := none }
  else if message_type = some "player_disconnect" then
    { state := s, events := [], raised := none }
  else if message_type = some "chat_message" then
    let r := broadcast s (taggedMessage "chat_message" client_id message.mdata)
    { state := r.1, events := r.2, raised := none }
  else
    { state := s, events := [], raised := none }

/-- One inbound frame of the `websocket_endpoint` loop: the raw text
received and the outcome of `json.loads` on it (`none` when it raised
`json.JSONDecodeError`). -/
structure Inbound where
  raw : String
  parsed : Option GameMessage
deriving DecidableEq

/-- One iteration of the `websocket_endpoint` receive loop: a decodable
frame goes to `handle_game_message`; an undecodable one falls back to
`broadcast(f"Client \x7bclient_id\x7d: \x7bdata\x7d")`. -/
def websocket_message_step (s : CMState) (client_id : String)
    (inbound : Inbound) : HResult :=
  match inbound.parsed with
  | some message => handle_game_message s client_id message
  | none =>
      let r := broadcast s (OutMsg.raw ("Client " ++ client_id ++ ": " ++ inbound.raw))
      { state := r.1, events := r.2, raised := none }

/-- The `WebSocketDisconnect` handler of `websocket_endpoint`: disconnect,
then broadcast the `player_left` notice (with a timestamp). -/
def websocket_disconnect_step (s : CMState) (client_id : String)
    (timestamp : Int) : HResult :=
  let s1 := disconnect s client_id
  let r := broadcast s1 (OutMsg.typed "player_left"
    [("client_id", JVal.str client_id), ("timestamp", JVal.num timestamp)])
  { state := r.1, events := r.2, raised := none }

/-- `client_id in self.active_connections`. -/
def registered (s : CMState) (client_id : String) : Bool :=
  (dlookup client_id s.active_connections).isSome

/-- The recipient of an event, when it is a send. -/
def evTarget : Ev → Option String
  | Ev.sentText t _ _ => some t
  | _ => none

/-- No connection on the state fails its writes (so no broadcast evicts). -/
def allOk (s : CMState) : Prop := ∀ p ∈ s.active_connections, p.2.ok = true

/-- Concrete fixture: guild channel 9 holds healthy "a", failing "b",
then healthy "c". -/
def stC4 : CMState :=
  { active_connections := [("a", ⟨1, true⟩), ("b", ⟨2, false⟩), ("c", ⟨3, true⟩)],
    player_data := [], guild_channels := [(9, ["a", "b", "c"])],
    city_presence := [] }

/-- Concrete fixture: four connections, "b" failing. -/
def stC5 : CMState :=
  { active_connections :=
      [("a", ⟨1, true⟩), ("x", ⟨2, true⟩), ("b", ⟨3, false⟩), ("c", ⟨4, true⟩)],
    player_data := [], guild_channels := [], city_presence := [] }

/-- Concrete fixture: two healthy connections, "a" has spawned. -/
def stOk : CMState :=
  { active_connections := [("a", ⟨1, true⟩), ("b", ⟨2, true⟩)],
    player_data := [("a", [("hp", JVal.num 5)])],
    guild_channels := [], city_presence := [] }

/-- Concrete fixture: client "a" connected, in guild channel 7 and in the
city plaza. -/
def stJoined : CMState :=
  ConnectionManager.join_city
    (ConnectionManager.join_guild_channel
      (ConnectionManager.connect initState ⟨1, true⟩ "a").1 "a" 7) "a"

/-- The duplicate-freeness invariant: all four structures are duplicate
free, both in their keys and in every membership list. -/
def NodupState (s : CMState) : Prop :=
  (dkeys s.active_connections).Nodup ∧ (dkeys s.player_data).Nodup ∧
  (dkeys s.guild_channels).Nodup ∧ s.city_presence.Nodup ∧
  ∀ gm ∈ s.guild_channels, gm.2.Nodup

/-- "No presence or room entry outlives its connection": every client id
appearing in `player_data`, in any guild channel or in `city_presence` is
currently registered. -/
def RegClosed (s : CMState) : Prop :=
  (∀ p ∈ s.player_data, registered s p.1 = true) ∧
  (∀ gm ∈ s.guild_channels, ∀ c ∈ gm.2, registered s c = true) ∧
  (∀ c ∈ s.city_presence, registered s c = true)

/-- States reachable through the manager's public operations, driven as the
server drives them: `store_player_data` and the room joins happen from the
endpoint loop of a currently connected client, everything else is
unconstrained. -/
inductive Reach : CMState → Prop where
  | init : Reach initState
  | connect_step (s : CMState) (ws : WS) (cid : String) :
      Reach s → Reach (ConnectionManager.connect s ws cid).1
  | disconnect_step (s : CMState) (cid : String) :
      Reach s → Reach (ConnectionManager.disconnect s cid)
  | store_step (s : CMState) (cid : String) (d : Payload) :
      Reach s → registered s cid = true →
      Reach (ConnectionManager.store_player_data s cid d)
  | join_guild_step (s : CMState) (cid : String) (g : Int) :
      Reach s → registered s cid = true →
      Reach (ConnectionManager.join_guild_channel s cid g)
  | leave_guild_step (s : CMState) (cid : String) (g : Int) :
      Reach s → Reach (ConnectionManager.leave_guild_channel s cid g)
  | join_city_step (s : CMState) (cid : String) :
      Reach s → registered s cid = true →
      Reach (ConnectionManager.join_city s cid)
  | leave_city_step (s : CMState) (cid : String) :
      Reach s → Reach (ConnectionManager.leave_city s cid)
  | broadcast_step (s : CMState) (m : OutMsg) :
      Reach s → Reach (ConnectionManager.broadcast s m).1
  | broadcast_others_step (s : CMState) (m : OutMsg) (x : String) :
      Reach s → Reach (ConnectionManager.broadcast_to_others s m x).1
  | game_message_step (s : CMState) (cid : String) (m : GameMessage) :
      Reach s → registered s cid = true →
      Reach (handle_game_message s cid m).state

/-- Same reachable states, but broadcasting only happens while every
registered connection is healthy: the failure-eviction branches are never
taken along the run. -/
inductive ReachOk : CMState → Prop where
  | init : ReachOk initState
  | connect_step (s : CMState) (ws : WS) (cid : String) :
      ReachOk s → ReachOk (ConnectionManager.connect s ws cid).1
  | disconnect_step (s : CMState) (cid : String) :
      ReachOk s → ReachOk (ConnectionManager.disconnect s cid)
  | store_step (s : CMState) (cid : String) (d : Payload) :
      ReachOk s → registered s cid = true →
      ReachOk (ConnectionManager.store_player_data s cid d)
  | join_guild_step (s : CMState) (cid : String) (g : Int) :
      ReachOk s → registered s cid = true →
      ReachOk (ConnectionManager.join_guild_channel s cid g)
  | leave_guild_step (s : CMState) (cid : String) (g : Int) :
      ReachOk s → ReachOk (ConnectionManager.leave_guild_channel s cid g)
  | join_city_step (s : CMState) (cid : String) :
      ReachOk s → registered s cid = true →
      ReachOk (ConnectionManager.join_city s cid)
  | leave_city_step (s : CMState) (cid : String) :
      ReachOk s → ReachOk (ConnectionManager.leave_city s cid)
  | broadcast_step (s : CMState) (m : OutMsg) :
      ReachOk s → allOk s → ReachOk (ConnectionManager.broadcast s m).1
  | broadcast_others_step (s : CMState) (m : OutMsg) (x : String) :
      ReachOk s → allOk s → ReachOk (ConnectionManager.broadcast_to_others s m x).1
  | game_message_step (s : CMState) (cid : String) (m : GameMessage) :
      ReachOk s → registered s cid = true → allOk s →
      ReachOk (handle_game_message s cid m).state

section DictLemmas

variable {κ α : Type} [DecidableEq κ]

theorem dlookup_dinsert_self (k : κ) (v : α) (d : Dict κ α) :
    dlookup k (dinsert k v d) = some v := by
  induction d with
  | nil => simp [dinsert, dlookup]
  | cons p d ih =>
      obtain ⟨k', v'⟩ := p
      by_cases h : k' = k
      · simp [dinsert, h, dlookup]
      · simp [dinsert, h, dlookup, ih]

theorem dlookup_dinsert_ne {k k' : κ} (v : α) (d : Dict κ α) (h : k' ≠ k) :
    dlookup k (dinsert k' v d) = dlookup k d := by
  induction d with
  | nil => simp [dinsert, dlookup, h]
  | cons p d ih =>
      obtain ⟨k₀, v₀⟩ := p
      by_cases h0 : k₀ = k'
      · simp [dinsert, h0, dlookup, h, Ne.symm h]
      · by_cases h1 : k₀ = k <;> simp [dinsert, h0, dlookup, h1, ih, Ne.symm h]

theorem dlookup_dremove_ne {k k' : κ} (d : Dict κ α) (h : k' ≠ k) :
    dlookup k (dremove k' d) = dlookup k d := by
  induction d with
  | nil => simp [dremove]
  | cons p d ih =>
      obtain ⟨k₀, v₀⟩ := p
      by_cases h0 : k₀ = k'
      · subst h0
        simp [dremove, dlookup, h]
      · by_cases h1 : k₀ = k <;> simp [dremove, h0, dlookup, h1, ih, Ne.symm h]

theorem dremove_sublist (k : κ) (d : Dict κ α) :
    List.Sublist (dremove k d) d := by
  induction d with
  | nil => simp [dremove]
  | cons p d ih =>
      by_cases h : p.1 = k
      · simp [dremove, h]
      · simpa [dremove, h] using ih.cons₂ p

omit [DecidableEq κ] in
theorem mem_dkeys_iff {k : κ} {d : Dict κ α} :
    k ∈ dkeys d ↔ ∃ v, (k, v) ∈ d := by
  constructor
  · intro h
    obtain ⟨p, hp, he⟩ := List.mem_map.mp h
    exact ⟨p.2, by simpa [← he] using hp⟩
  · rintro ⟨v, hv⟩
    exact List.mem_map.mpr ⟨(k, v), hv, rfl⟩

theorem dlookup_eq_none_iff {k : κ} {d : Dict κ α} :
    dlookup k d = none ↔ k ∉ dkeys d := by
  induction d with
  | nil => simp [dlookup, dkeys]
  | cons p d ih =>
      obtain ⟨k₀, v₀⟩ := p
      by_cases h : k₀ = k
      · simp [dlookup, h, dkeys]
      · simp [dlookup, h, dkeys, ih, Ne.symm h]

theorem dlookup_isSome_of_mem {p : κ × α} {d : Dict κ α} (h : p ∈ d) :
    (dlookup p.1 d).isSome = true := by
  induction d with
  | nil => simp at h
  | cons q d ih =>
      by_cases hq : q.1 = p.1
      · simp [dlookup, hq]
      · rcases List.mem_cons.mp h with h | h
        · exact absurd (congrArg Prod.fst h.symm) hq
        · simpa [dlookup, hq] using ih h

omit [DecidableEq κ] in
theorem mem_dkeys_of_mem {p : κ × α} {d : Dict κ α} (h : p ∈ d) :
    p.1 ∈ dkeys d :=
  List.mem_map.mpr ⟨p, h, rfl⟩

omit [DecidableEq κ] in
theorem dkeys_nodup_cons {q : κ × α} {d : Dict κ α}
    (hnd : (dkeys (q :: d)).Nodup) : q.1 ∉ dkeys d ∧ (dkeys d).Nodup :=
  List.nodup_cons.mp (show (q.1 :: dkeys d).Nodup from hnd)

theorem dlookup_of_mem_nodup {p : κ × α} {d : Dict κ α}
    (hnd : (dkeys d).Nodup) (h : p ∈ d) : dlookup p.1 d = some p.2 := by
  induction d with
  | nil => simp at h
  | cons q d ih =>
      rcases List.mem_cons.mp h with h | h
      · subst h
        simp [dlookup]
      · have hq1 : q.1 ∉ dkeys d := (dkeys_nodup_cons hnd).1
        have hne : q.1 ≠ p.1 := fun he => hq1 (he ▸ mem_dkeys_of_mem h)
        have hnd' : (dkeys d).Nodup := (dkeys_nodup_cons hnd).2
        simpa [dlookup, hne] using ih hnd' h

theorem mem_of_dlookup {k : κ} {v : α} {d : Dict κ α}
    (h : dlookup k d = some v) : (k, v) ∈ d := by
  induction d with
  | nil => simp [dlookup] at h
  | cons q d ih =>
      by_cases hq : q.1 = k
      · obtain ⟨k₀, v₀⟩ := q
        simp only [dlookup] at h
        rw [if_pos hq] at h
        cases h
        simp_all
      · obtain ⟨k₀, v₀⟩ := q
        simp only [dlookup] at h
        rw [if_neg hq] at h
        exact List.mem_cons_of_mem _ (ih h)

theorem dlookup_dremove_self {k : κ} {d : Dict κ α}
    (hnd : (dkeys d).Nodup) : dlookup k (dremove k d) = none := by
  induction d with
  | nil => simp [dremove, dlookup]
  | cons q d ih =>
      obtain ⟨k₀, v₀⟩ := q
      have hnd2 := dkeys_nodup_cons hnd
      by_cases h0 : k₀ = k
      · subst h0
        rw [show dremove k₀ ((k₀, v₀) :: d) = d by simp [dremove]]
        rw [dlookup_eq_none_iff]
        exact hnd2.1
      · rw [show dremove k ((k₀, v₀) :: d) = (k₀, v₀) :: dremove k d by
          simp [dremove, h0]]
        simpa [dlookup, h0] using ih hnd2.2

theorem mem_dkeys_dinsert {x k : κ} (v : α) (d : Dict κ α) :
    x ∈ dkeys (dinsert k v d) ↔ x = k ∨ x ∈ dkeys d := by
  induction d with
  | nil => simp [dinsert, dkeys]
  | cons p d ih =>
      obtain ⟨k₀, v₀⟩ := p
      by_cases h : k₀ = k
      · subst h
        simp [dinsert, dkeys]
      · rw [show dinsert k v ((k₀, v₀) :: d) = (k₀, v₀) :: dinsert k v d by
          simp [dinsert, h]]
        rw [show dkeys ((k₀, v₀) :: dinsert k v d) = k₀ :: dkeys (dinsert k v d) from rfl]
        rw [show dkeys ((k₀, v₀) :: d) = k₀ :: dkeys d from rfl]
        simp only [List.mem_cons, ih]
        tauto

theorem dkeys_nodup_dinsert {k : κ} (v : α) {d : Dict κ α}
    (hnd : (dkeys d).Nodup) : (dkeys (dinsert k v d)).Nodup := by
  induction d with
  | nil => simp [dinsert, dkeys]
  | cons p d ih =>
      obtain ⟨k₀, v₀⟩ := p
      have hnd2 := dkeys_nodup_cons hnd
      by_cases h : k₀ = k
      · subst h
        rw [show dinsert k₀ v ((k₀, v₀) :: d) = (k₀, v) :: d by simp [dinsert]]
        exact List.nodup_cons.mpr hnd2
      · have hins : (dkeys (dinsert k v d)).Nodup := ih hnd2.2
        have hk0 : k₀ ∉ dkeys (dinsert k v d) := by
          rw [mem_dkeys_dinsert]
          rintro (rfl | hx)
          · exact h rfl
          · exact hnd2.1 hx
        rw [show dinsert k v ((k₀, v₀) :: d) = (k₀, v₀) :: dinsert k v d by
          simp [dinsert, h]]
        exact List.nodup_cons.mpr ⟨hk0, hins⟩

theorem dkeys_nodup_dremove (k : κ) {d : Dict κ α}
    (hnd : (dkeys d).Nodup) : (dkeys (dremove k d)).Nodup :=
  hnd.sublist ((dremove_sublist k d).map Prod.fst)

theorem dlookup_dupdate_not_mem {k : κ} {d u : Dict κ α}
    (h : k ∉ dkeys u) : dlookup k (dupdate d u) = dlookup k d := by
  induction u generalizing d with
  | nil => simp [dupdate]
  | cons p u ih =>
      have hne : p.1 ≠ k := by
        intro he
        exact h (he ▸ mem_dkeys_of_mem (List.mem_cons_self p u))
      have hk : k ∉ dkeys u := fun hx => h (by simp [dkeys] at hx ⊢; tauto)
      calc dlookup k (dupdate d (p :: u))
          = dlookup k (dupdate (dinsert p.1 p.2 d) u) := rfl
        _ = dlookup k (dinsert p.1 p.2 d) := ih hk
        _ = dlookup k d := dlookup_dinsert_ne p.2 d hne

end DictLemmas

section BroadcastLemmas

/-- Entries of a dict with unique keys are determined by their key. -/
theorem entry_eq_of_key_eq {κ α : Type} {p q : κ × α} {d : Dict κ α}
    [DecidableEq κ] (hnd : (dkeys d).Nodup) (hp : p ∈ d) (hq : q ∈ d)
    (hk : p.1 = q.1) : p = q := by
  have h1 := dlookup_of_mem_nodup hnd hp
  have h2 := dlookup_of_mem_nodup hnd hq
  rw [hk, h2] at h1
  exact Prod.ext hk (Option.some_injective _ h1).symm

/-- With unique keys, `del d[k]` is the same as filtering the key out. -/
theorem dremove_eq_filter {κ α : Type} [DecidableEq κ] (k : κ) {d : Dict κ α}
    (hnd : (dkeys d).Nodup) :
    dremove k d = d.filter (fun q => !(q.1 = k)) := by
  induction d with
  | nil => simp [dremove]
  | cons p d ih =>
      have hnd2 := dkeys_nodup_cons hnd
      by_cases h : p.1 = k
      · rw [show dremove k (p :: d) = d by simp [dremove, h]]
        rw [List.filter_cons_of_neg (by simp [h])]
        refine (List.filter_eq_self.mpr ?_).symm
        intro q hq
        have : q.1 ≠ k := fun he => hnd2.1 (h ▸ he ▸ mem_dkeys_of_mem hq)
        simp [this]
      · rw [show dremove k (p :: d) = p :: dremove k d by simp [dremove, h]]
        rw [List.filter_cons_of_pos (by simp [h])]
        rw [ih hnd2.2]

/-- Folding `del` over a set of entries filters their keys out. -/
theorem foldl_dremove_eq_filter {κ α : Type} [DecidableEq κ]
    (rem : List (κ × α)) :
    ∀ (d : Dict κ α), (dkeys d).Nodup →
      rem.foldl (fun acc p => dremove p.1 acc) d =
        d.filter (fun q => !((rem.map Prod.fst).contains q.1)) := by
  induction rem with
  | nil => intro d _; simp
  | cons p rem ih =>
      intro d hnd
      have h1 : List.foldl (fun acc p => dremove p.1 acc) d (p :: rem) =
          rem.foldl (fun acc p => dremove p.1 acc) (dremove p.1 d) := rfl
      rw [h1, ih (dremove p.1 d) (dkeys_nodup_dremove p.1 hnd),
        dremove_eq_filter p.1 hnd, List.filter_filter]
      refine List.filter_congr ?_
      intro q _
      simp only [List.map_cons, List.contains_cons]
      cases hqp : q.1 == p.1 <;> simp_all

/-- The `broadcast` loop only deletes entries of `active_connections` and
leaves the other fields alone. -/
theorem bFold_shape (message : OutMsg) (l : Dict String WS) :
    ∀ (s : CMState) (evs : List Ev),
      ∃ A, (l.foldl (bStep message) (s, evs)).1 =
          { s with active_connections := A } ∧
        List.Sublist A s.active_connections := by
  induction l with
  | nil => intro s evs; exact ⟨s.active_connections, rfl, List.Sublist.refl _⟩
  | cons p l ih =>
      intro s evs
      by_cases hs : (dlookup p.1 s.active_connections).isSome = true
      · by_cases hok : p.2.ok = true
        · have h1 : List.foldl (bStep message) (s, evs) (p :: l) =
              l.foldl (bStep message) (s, evs ++ [Ev.sentText p.1 p.2 message]) := by
            simp [bStep, hs, hok]
          rw [h1]; exact ih s _
        · have h1 : List.foldl (bStep message) (s, evs) (p :: l) =
              l.foldl (bStep message)
                ({ s with active_connections := dremove p.1 s.active_connections }, evs) := by
            simp [bStep, hs, hok]
          rw [h1]
          obtain ⟨A, hA, hsub⟩ := ih { s with active_connections := dremove p.1 s.active_connections } evs
          exact ⟨A, hA, hsub.trans (dremove_sublist _ _)⟩
      · have h1 : List.foldl (bStep message) (s, evs) (p :: l) =
            l.foldl (bStep message) (s, evs) := by
          simp [bStep, hs]
        rw [h1]; exact ih s evs

/-- The `broadcast_to_others` loop only deletes entries of
`active_connections` and leaves the other fields alone. -/
theorem btoFold_shape (message : OutMsg) (X : String) (l : Dict String WS) :
    ∀ (s : CMState) (evs : List Ev),
      ∃ A, (l.foldl (btoStep message X) (s, evs)).1 =
          { s with active_connections := A } ∧
        List.Sublist A s.active_connections := by
  induction l with
  | nil => intro s evs; exact ⟨s.active_connections, rfl, List.Sublist.refl _⟩
  | cons p l ih =>
      intro s evs
      by_cases hcond : p.1 ≠ X ∧ (dlookup p.1 s.active_connections).isSome = true
      · by_cases hok : p.2.ok = true
        · have h1 : List.foldl (btoStep message X) (s, evs) (p :: l) =
              l.foldl (btoStep message X) (s, evs ++ [Ev.sentText p.1 p.2 message]) := by
            simp [btoStep, hcond, hok]
          rw [h1]; exact ih s _
        · have h1 : List.foldl (btoStep message X) (s, evs) (p :: l) =
              l.foldl (btoStep message X)
                ({ s with active_connections := dremove p.1 s.active_connections }, evs) := by
            simp [btoStep, hcond, hok]
          rw [h1]
          obtain ⟨A, hA, hsub⟩ := ih { s with active_connections := dremove p.1 s.active_connections } evs
          exact ⟨A, hA, hsub.trans (dremove_sublist _ _)⟩
      · have h2 : btoStep message X (s, evs) p = (s, evs) := by
          simp only [btoStep, if_neg hcond]
        have h1 : List.foldl (btoStep message X) (s, evs) (p :: l) =
            l.foldl (btoStep message X) (s, evs) := by
          rw [List.foldl_cons, h2]
        rw [h1]; exact ih s evs

/-- When every iterated connection is still registered and none of them
fails, the `broadcast` loop sends to each in order and changes nothing. -/
theorem bFold_ok (message : OutMsg) (l : Dict String WS) :
    ∀ (s : CMState) (evs : List Ev),
      (∀ p ∈ l, (dlookup p.1 s.active_connections).isSome = true) →
      (∀ p ∈ l, p.2.ok = true) →
      l.foldl (bStep message) (s, evs) =
        (s, evs ++ l.map (fun p => Ev.sentText p.1 p.2 message)) := by
  induction l with
  | nil => intro s evs _ _; simp
  | cons p l ih =>
      intro s evs hreg hok
      have h1 : List.foldl (bStep message) (s, evs) (p :: l) =
          l.foldl (bStep message) (s, evs ++ [Ev.sentText p.1 p.2 message]) := by
        simp [bStep, hreg p (List.mem_cons_self p l), hok p (List.mem_cons_self p l)]
      rw [h1, ih s _ (fun q hq => hreg q (List.mem_cons_of_mem p hq))
        (fun q hq => hok q (List.mem_cons_of_mem p hq))]
      simp

/-- When every iterated connection is still registered and none of them
fails, the `broadcast_to_others` loop sends to each non-excluded one in
order and changes nothing. -/
theorem btoFold_ok (message : OutMsg) (X : String) (l : Dict String WS) :
    ∀ (s : CMState) (evs : List Ev),
      (∀ p ∈ l, (dlookup p.1 s.active_connections).isSome = true) →
      (∀ p ∈ l, p.2.ok = true) →
      l.foldl (btoStep message X) (s, evs) =
        (s, evs ++ (l.filter (fun p => decide (p.1 ≠ X))).map
          (fun p => Ev.sentText p.1 p.2 message)) := by
  induction l with
  | nil => intro s evs _ _; simp
  | cons p l ih =>
      intro s evs hreg hok
      by_cases hX : p.1 = X
      · have h1 : List.foldl (btoStep message X) (s, evs) (p :: l) =
            l.foldl (btoStep message X) (s, evs) := by
          simp [btoStep, hX]
        rw [h1, ih s evs (fun q hq => hreg q (List.mem_cons_of_mem p hq))
          (fun q hq => hok q (List.mem_cons_of_mem p hq))]
        simp [hX]
      · have h1 : List.foldl (btoStep message X) (s, evs) (p :: l) =
            l.foldl (btoStep message X) (s, evs ++ [Ev.sentText p.1 p.2 message]) := by
          simp [btoStep, hX, hreg p (List.mem_cons_self p l),
            hok p (List.mem_cons_self p l)]
        rw [h1, ih s _ (fun q hq => hreg q (List.mem_cons_of_mem p hq))
          (fun q hq => hok q (List.mem_cons_of_mem p hq))]
        simp [hX]

/-- `broadcast` when no connection fails: pure fan-out, state unchanged. -/
theorem broadcast_ok (s : CMState) (message : OutMsg)
    (hok : ∀ p ∈ s.active_connections, p.2.ok = true) :
    broadcast s message =
      (s, s.active_connections.map (fun p => Ev.sentText p.1 p.2 message)) := by
  have := bFold_ok message s.active_connections s []
    (fun p hp => dlookup_isSome_of_mem hp) hok
  simpa [broadcast] using this

/-- `broadcast_to_others` when no connection fails: fan-out to everyone but
the excluded client, state unchanged. -/
theorem broadcast_to_others_ok (s : CMState) (message : OutMsg) (X : String)
    (hok : ∀ p ∈ s.active_connections, p.2.ok = true) :
    broadcast_to_others s message X =
      (s, (s.active_connections.filter (fun p => decide (p.1 ≠ X))).map
        (fun p => Ev.sentText p.1 p.2 message)) := by
  have := btoFold_ok message X s.active_connections s []
    (fun p hp => dlookup_isSome_of_mem hp) hok
  simpa [broadcast_to_others] using this

/-- Full description of the `broadcast_to_others` loop with arbitrary
failing connections: the events are the sends to the non-excluded targets
whose write succeeds, and the failing non-excluded targets get deleted from
`active_connections`, in iteration order. -/
theorem btoFold_spec (message : OutMsg) (X : String) (l : Dict String WS) :
    ∀ (s : CMState) (evs : List Ev),
      (∀ p ∈ l, dlookup p.1 s.active_connections = some p.2) →
      (dkeys l).Nodup →
      l.foldl (btoStep message X) (s, evs) =
        ({ s with active_connections :=
             ((l.filter (fun p => decide (p.1 ≠ X) && !p.2.ok)).foldl
               (fun acc p => dremove p.1 acc) s.active_connections) },
         evs ++ (l.filter (fun p => decide (p.1 ≠ X) && p.2.ok)).map
           (fun p => Ev.sentText p.1 p.2 message)) := by
  induction l with
  | nil => intro s evs _ _; simp
  | cons p l ih =>
      intro s evs hreg hnd
      have hnd2 := dkeys_nodup_cons hnd
      by_cases hX : p.1 = X
      · have h2 : btoStep message X (s, evs) p = (s, evs) := by
          simp [btoStep, hX]
        rw [List.foldl_cons, h2,
          ih s evs (fun q hq => hreg q (List.mem_cons_of_mem p hq)) hnd2.2]
        simp [hX]
      · have hs : (dlookup p.1 s.active_connections).isSome = true := by
          simp [hreg p (List.mem_cons_self p l)]
        by_cases hok : p.2.ok = true
        · have h2 : btoStep message X (s, evs) p =
              (s, evs ++ [Ev.sentText p.1 p.2 message]) := by
            simp [btoStep, hX, hs, hok]
          rw [List.foldl_cons, h2,
            ih s _ (fun q hq => hreg q (List.mem_cons_of_mem p hq)) hnd2.2]
          simp [hX, hok]
        · have h2 : btoStep message X (s, evs) p =
              ({ s with active_connections := dremove p.1 s.active_connections },
               evs) := by
            simp [btoStep, hX, hs, hok]
          rw [List.foldl_cons, h2]
          have hreg' : ∀ q ∈ l, dlookup q.1
              ({ s with active_connections :=
                  dremove p.1 s.active_connections }).active_connections = some q.2 := by
            intro q hq
            have hne : p.1 ≠ q.1 := fun he => hnd2.1 (he ▸ mem_dkeys_of_mem hq)
            simpa [dlookup_dremove_ne _ hne] using hreg q (List.mem_cons_of_mem p hq)
          rw [ih _ evs hreg' hnd2.2]
          simp [hX, hok]

/-- `broadcast_to_others` on a state with unique connection keys: the final
registry keeps exactly the excluded client and the targets whose write
succeeded, and exactly the non-excluded succeeding targets are sent the
message. -/
theorem broadcast_to_others_spec (s : CMState) (message : OutMsg) (X : String)
    (hnd : (dkeys s.active_connections).Nodup) :
    broadcast_to_others s message X =
      ({ s with active_connections :=
           s.active_connections.filter (fun p => decide (p.1 = X) || p.2.ok) },
       (s.active_connections.filter (fun p => decide (p.1 ≠ X) && p.2.ok)).map
         (fun p => Ev.sentText p.1 p.2 message)) := by
  have h1 := btoFold_spec message X s.active_connections s []
    (fun p hp => dlookup_of_mem_nodup hnd hp) hnd
  rw [broadcast_to_others, h1,
    foldl_dremove_eq_filter
      (s.active_connections.filter (fun p => decide (p.1 ≠ X) && !p.2.ok))
      s.active_connections hnd]
  refine Prod.ext ?_ (by simp)
  refine congrArg (fun A => { s with active_connections := A }) ?_
  refine List.filter_congr ?_
  intro q hq
  show (!((s.active_connections.filter
      (fun p => decide (p.1 ≠ X) && !p.2.ok)).map Prod.fst).contains q.1) =
    (decide (q.1 = X) || q.2.ok)
  by_cases hb : (decide (q.1 ≠ X) && !q.2.ok) = true
  · have hmem : q.1 ∈ (s.active_connections.filter
        (fun p => decide (p.1 ≠ X) && !p.2.ok)).map Prod.fst :=
      mem_dkeys_of_mem (List.mem_filter.mpr ⟨hq, hb⟩)
    have hc : ((s.active_connections.filter
        (fun p => decide (p.1 ≠ X) && !p.2.ok)).map Prod.fst).contains q.1 = true := by
      simpa using hmem
    rw [hc]
    simp only [Bool.and_eq_true, decide_eq_true_eq, Bool.not_eq_true'] at hb
    simp [hb.1, hb.2]
  · have hmem : q.1 ∉ (s.active_connections.filter
        (fun p => decide (p.1 ≠ X) && !p.2.ok)).map Prod.fst := by
      intro hmem
      obtain ⟨r, hr, hrq⟩ := List.mem_map.mp hmem
      have hr2 := List.mem_filter.mp hr
      have : r = q := entry_eq_of_key_eq hnd hr2.1 hq hrq
      rw [this] at hr2
      exact hb hr2.2
    have hc : ((s.active_connections.filter
        (fun p => decide (p.1 ≠ X) && !p.2.ok)).map Prod.fst).contains q.1 = false := by
      simpa using hmem
    rw [hc]
    by_cases hX' : q.1 = X
    · simp [hX']
    · have hok : q.2.ok = true := by
        rcases Bool.eq_false_or_eq_true q.2.ok with ho | ho
        · exact ho
        · exact absurd (by simp [hX', ho]) hb
      simp [hX', hok]

end BroadcastLemmas

section Reachability

/-- Entries of `dinsert k v d` are the new binding or old entries. -/
theorem mem_dinsert {κ α : Type} [DecidableEq κ] {q : κ × α} {k : κ} {v : α}
    {d : Dict κ α} (h : q ∈ dinsert k v d) : q = (k, v) ∨ q ∈ d := by
  induction d with
  | nil => simpa [dinsert] using h
  | cons p d ih =>
      by_cases hp : p.1 = k
      · rw [show dinsert k v (p :: d) = (k, v) :: d by
          obtain ⟨k₀, v₀⟩ := p; simp_all [dinsert]] at h
        rcases List.mem_cons.mp h with h | h
        · exact Or.inl h
        · exact Or.inr (List.mem_cons_of_mem p h)
      · rw [show dinsert k v (p :: d) = p :: dinsert k v d by
          obtain ⟨k₀, v₀⟩ := p; simp_all [dinsert]] at h
        rcases List.mem_cons.mp h with h | h
        · exact Or.inr (h ▸ List.mem_cons_self p d)
        · rcases ih h with h | h
          · exact Or.inl h
          · exact Or.inr (List.mem_cons_of_mem p h)

/-- With unique keys, entries surviving `del d[k]` are old entries whose
key is not `k`. -/
theorem mem_dremove {κ α : Type} [DecidableEq κ] {q : κ × α} {k : κ}
    {d : Dict κ α} (hnd : (dkeys d).Nodup) (h : q ∈ dremove k d) :
    q ∈ d ∧ q.1 ≠ k := by
  rw [dremove_eq_filter k hnd] at h
  have h2 := List.mem_filter.mp h
  exact ⟨h2.1, by simpa using h2.2⟩

open ConnectionManager

theorem reachok_reach {s : CMState} (h : ReachOk s) : Reach s := by
  induction h with
  | init => exact Reach.init
  | connect_step s ws cid _ ih => exact Reach.connect_step s ws cid ih
  | disconnect_step s cid _ ih => exact Reach.disconnect_step s cid ih
  | store_step s cid d _ hr ih => exact Reach.store_step s cid d ih hr
  | join_guild_step s cid g _ hr ih => exact Reach.join_guild_step s cid g ih hr
  | leave_guild_step s cid g _ ih => exact Reach.leave_guild_step s cid g ih
  | join_city_step s cid _ hr ih => exact Reach.join_city_step s cid ih hr
  | leave_city_step s cid _ ih => exact Reach.leave_city_step s cid ih
  | broadcast_step s m _ _ ih => exact Reach.broadcast_step s m ih
  | broadcast_others_step s m x _ _ ih => exact Reach.broadcast_others_step s m x ih
  | game_message_step s cid m _ hr _ ih => exact Reach.game_message_step s cid m ih hr

theorem nodup_connect {s : CMState} (h : NodupState s) (ws : WS) (cid : String) :
    NodupState (connect s ws cid).1 :=
  ⟨dkeys_nodup_dinsert ws h.1, h.2.1, h.2.2.1, h.2.2.2.1, h.2.2.2.2⟩

theorem nodup_store {s : CMState} (h : NodupState s) (cid : String) (d : Payload) :
    NodupState (store_player_data s cid d) :=
  ⟨h.1, dkeys_nodup_dinsert d h.2.1, h.2.2.1, h.2.2.2.1, h.2.2.2.2⟩

theorem nodup_disconnect {s : CMState} (h : NodupState s) (cid : String) :
    NodupState (disconnect s cid) := by
  obtain ⟨h1, h2, h3, h4, h5⟩ := h
  refine ⟨?_, ?_, ?_, ?_, ?_⟩
  · by_cases hc : (dlookup cid s.active_connections).isSome = true
    · simpa [disconnect, hc] using dkeys_nodup_dremove cid h1
    · simpa [disconnect, hc] using h1
  · by_cases hc : (dlookup cid s.player_data).isSome = true
    · simpa [disconnect, hc] using dkeys_nodup_dremove cid h2
    · simpa [disconnect, hc] using h2
  · show (dkeys ((disconnect s cid).guild_channels)).Nodup
    have he : (disconnect s cid).guild_channels = s.guild_channels.map
        (fun gm => (gm.1, if cid ∈ gm.2 then gm.2.erase cid else gm.2)) := rfl
    rw [he]
    have hk : dkeys (s.guild_channels.map
        (fun gm => (gm.1, if cid ∈ gm.2 then gm.2.erase cid else gm.2))) =
        dkeys s.guild_channels := by
      simp [dkeys, List.map_map]
    rw [hk]; exact h3
  · show ((disconnect s cid).city_presence).Nodup
    by_cases hc : cid ∈ s.city_presence
    · simpa [disconnect, hc] using h4.erase cid
    · simpa [disconnect, hc] using h4
  · intro gm hgm
    have he : (disconnect s cid).guild_channels = s.guild_channels.map
        (fun gm => (gm.1, if cid ∈ gm.2 then gm.2.erase cid else gm.2)) := rfl
    rw [he] at hgm
    obtain ⟨gm0, hgm0, hmap⟩ := List.mem_map.mp hgm
    rw [← hmap]
    by_cases hc : cid ∈ gm0.2
    · simpa [hc] using (h5 gm0 hgm0).erase cid
    · simpa [hc] using h5 gm0 hgm0

theorem nodup_join_guild {s : CMState} (h : NodupState s) (cid : String)
    (g : Int) : NodupState (join_guild_channel s cid g) := by
  obtain ⟨h1, h2, h3, h4, h5⟩ := h
  set channels :=
    (if (dlookup g s.guild_channels).isSome = true then s.guild_channels
     else dinsert g [] s.guild_channels) with hch
  have hck : (dkeys channels).Nodup := by
    rw [hch]; split
    · exact h3
    · exact dkeys_nodup_dinsert [] h3
  have hcm : ∀ gm ∈ channels, gm.2.Nodup := by
    intro gm hgm
    rw [hch] at hgm
    split at hgm
    · exact h5 gm hgm
    · rcases mem_dinsert hgm with he | he
      · simp [he]
      · exact h5 gm he
  show NodupState (join_guild_channel s cid g)
  rw [show join_guild_channel s cid g =
      (match dlookup g channels with
       | some members =>
           if cid ∈ members then { s with guild_channels := channels }
           else { s with guild_channels :=
              (dinsert g (members ++ [cid]) channels) }
       | none => { s with guild_channels := channels }) from rfl]
  cases hg : dlookup g channels with
  | none => simp only [hg]; exact ⟨h1, h2, hck, h4, hcm⟩
  | some members =>
      simp only [hg]
      by_cases hmem : cid ∈ members
      · rw [if_pos hmem]; exact ⟨h1, h2, hck, h4, hcm⟩
      · rw [if_neg hmem]
        refine ⟨h1, h2, dkeys_nodup_dinsert _ hck, h4, ?_⟩
        intro gm hgm
        rcases mem_dinsert hgm with he | he
        · have hmn : members.Nodup := hcm (g, members) (mem_of_dlookup hg)
          rw [he]
          simpa [List.nodup_append, hmem] using hmn
        · exact hcm gm he

theorem nodup_leave_guild {s : CMState} (h : NodupState s) (cid : String)
    (g : Int) : NodupState (leave_guild_channel s cid g) := by
  obtain ⟨h1, h2, h3, h4, h5⟩ := h
  cases hg : dlookup g s.guild_channels with
  | none =>
      simp only [leave_guild_channel, hg]
      exact ⟨h1, h2, h3, h4, h5⟩
  | some members =>
      by_cases hmem : cid ∈ members
      · simp only [leave_guild_channel, hg, if_pos hmem]
        refine ⟨h1, h2, dkeys_nodup_dinsert _ h3, h4, ?_⟩
        intro gm hgm
        rcases mem_dinsert hgm with he | he
        · have hmn : members.Nodup := h5 (g, members) (mem_of_dlookup hg)
          rw [he]
          exact hmn.erase cid
        · exact h5 gm he
      · simp only [leave_guild_channel, hg, if_neg hmem]
        exact ⟨h1, h2, h3, h4, h5⟩

theorem nodup_join_city {s : CMState} (h : NodupState s) (cid : String) :
    NodupState (join_city s cid) := by
  obtain ⟨h1, h2, h3, h4, h5⟩ := h
  rw [join_city]
  by_cases hmem : cid ∈ s.city_presence
  · rw [if_pos hmem]; exact ⟨h1, h2, h3, h4, h5⟩
  · rw [if_neg hmem]
    exact ⟨h1, h2, h3, by simpa [List.nodup_append, hmem] using h4, h5⟩

theorem nodup_leave_city {s : CMState} (h : NodupState s) (cid : String) :
    NodupState (leave_city s cid) := by
  obtain ⟨h1, h2, h3, h4, h5⟩ := h
  rw [leave_city]
  by_cases hmem : cid ∈ s.city_presence
  · rw [if_pos hmem]; exact ⟨h1, h2, h3, h4.erase cid, h5⟩
  · rw [if_neg hmem]; exact ⟨h1, h2, h3, h4, h5⟩

theorem nodup_broadcast {s : CMState} (h : NodupState s) (m : OutMsg) :
    NodupState (broadcast s m).1 := by
  obtain ⟨A, hA, hsub⟩ := bFold_shape m s.active_connections s []
  rw [broadcast, hA]
  exact ⟨h.1.sublist (hsub.map Prod.fst), h.2.1, h.2.2.1, h.2.2.2.1, h.2.2.2.2⟩

theorem nodup_broadcast_to_others {s : CMState} (h : NodupState s)
    (m : OutMsg) (x : String) : NodupState (broadcast_to_others s m x).1 := by
  obtain ⟨A, hA, hsub⟩ := btoFold_shape m x s.active_connections s []
  rw [broadcast_to_others, hA]
  exact ⟨h.1.sublist (hsub.map Prod.fst), h.2.1, h.2.2.1, h.2.2.2.1, h.2.2.2.2⟩

/-- The state left by `handle_game_message` is one of six combinator
applications, matching its branches (spawn aborted by a raise, spawn,
move with an existing record, move without one, chat, no-op). -/
theorem handle_state_cases (s : CMState) (cid : String) (m : GameMessage) :
    (handle_game_message s cid m).state = store_player_data s cid m.mdata ∨
    (∃ msg, (handle_game_message s cid m).state =
        (broadcast_to_others (store_player_data s cid m.mdata) msg cid).1) ∨
    (∃ pd msg, dlookup cid s.player_data = some pd ∧
        (handle_game_message s cid m).state =
          (broadcast_to_others
            { s with player_data := dinsert cid (dupdate pd m.mdata) s.player_data }
            msg cid).1) ∨
    (∃ msg, dlookup cid s.player_data = none ∧
        (handle_game_message s cid m).state = (broadcast_to_others s msg cid).1) ∨
    (∃ msg, (handle_game_message s cid m).state = (broadcast s msg).1) ∨
    (handle_game_message s cid m).state = s := by
  by_cases hspawn : m.mtype = some "player_spawn" ∨ m.mtype = some "player_spawn_3d"
  · rw [show handle_game_message s cid m =
        (match sendExisting (store_player_data s cid m.mdata) cid
            (if m.mtype = some "player_spawn_3d" then "player_joined_3d" else "player_joined")
            (get_all_players (store_player_data s cid m.mdata)) with
         | (evs1, none) =>
             let r2 := broadcast_to_others (store_player_data s cid m.mdata)
               (taggedMessage
                 (if m.mtype = some "player_spawn_3d" then "player_joined_3d" else "player_joined")
                 cid m.mdata) cid
             { state := r2.1, events := evs1 ++ r2.2, raised := none }
         | (evs1, some e) =>
             { state := store_player_data s cid m.mdata, events := evs1,
               raised := some e }) from by
      simp only [handle_game_message, if_pos hspawn]]
    cases hse : sendExisting (store_player_data s cid m.mdata) cid
        (if m.mtype = some "player_spawn_3d" then "player_joined_3d" else "player_joined")
        (get_all_players (store_player_data s cid m.mdata)) with
    | mk evs1 e =>
        cases e with
        | none => exact Or.inr (Or.inl ⟨_, rfl⟩)
        | some e => exact Or.inl rfl
  · by_cases hmove : m.mtype = some "player_move" ∨ m.mtype = some "player_move_3d"
    · cases hpd : dlookup cid s.player_data with
      | some pd =>
          refine Or.inr (Or.inr (Or.inl ⟨pd,
            taggedMessage
              (if m.mtype = some "player_move_3d" then "player_moved_3d" else "player_moved")
              cid m.mdata, rfl, ?_⟩))
          simp only [handle_game_message, if_neg hspawn, if_pos hmove, hpd]
      | none =>
          refine Or.inr (Or.inr (Or.inr (Or.inl ⟨taggedMessage
              (if m.mtype = some "player_move_3d" then "player_moved_3d" else "player_moved")
              cid m.mdata, rfl, ?_⟩)))
          simp only [handle_game_message, if_neg hspawn, if_pos hmove, hpd]
    · by_cases hdisc : m.mtype = some "player_disconnect"
      · refine Or.inr (Or.inr (Or.inr (Or.inr (Or.inr ?_))))
        simp only [handle_game_message, if_neg hspawn, if_neg hmove, if_pos hdisc]
      · by_cases hchat : m.mtype = some "chat_message"
        · refine Or.inr (Or.inr (Or.inr (Or.inr (Or.inl
            ⟨taggedMessage "chat_message" cid m.mdata, ?_⟩))))
          simp only [handle_game_message, if_neg hspawn, if_neg hmove,
            if_neg hdisc, if_pos hchat]
        · refine Or.inr (Or.inr (Or.inr (Or.inr (Or.inr ?_))))
          simp only [handle_game_message, if_neg hspawn, if_neg hmove,
            if_neg hdisc, if_neg hchat]

theorem nodup_handle {s : CMState} (h : NodupState s) (cid : String)
    (m : GameMessage) : NodupState (handle_game_message s cid m).state := by
  rcases handle_state_cases s cid m with h1 | ⟨msg, h1⟩ | ⟨pd, msg, _, h1⟩ |
    ⟨msg, _, h1⟩ | ⟨msg, h1⟩ | h1 <;> rw [h1]
  · exact nodup_store h cid m.mdata
  · exact nodup_broadcast_to_others (nodup_store h cid m.mdata) msg cid
  · exact nodup_broadcast_to_others
      (show NodupState
          { s with player_data := dinsert cid (dupdate pd m.mdata) s.player_data } from
        ⟨h.1, dkeys_nodup_dinsert _ h.2.1, h.2.2.1, h.2.2.2.1, h.2.2.2.2⟩) msg cid
  · exact nodup_broadcast_to_others h msg cid
  · exact nodup_broadcast h msg
  · exact h

/-- Every reachable state is duplicate free everywhere. -/
theorem reach_nodup {s : CMState} (h : Reach s) : NodupState s := by
  induction h with
  | init => exact ⟨by simp [initState, dkeys], by simp [initState, dkeys],
      by simp [initState, dkeys], by simp [initState], by simp [initState]⟩
  | connect_step s ws cid _ ih => exact nodup_connect ih ws cid
  | disconnect_step s cid _ ih => exact nodup_disconnect ih cid
  | store_step s cid d _ _ ih => exact nodup_store ih cid d
  | join_guild_step s cid g _ _ ih => exact nodup_join_guild ih cid g
  | leave_guild_step s cid g _ ih => exact nodup_leave_guild ih cid g
  | join_city_step s cid _ _ ih => exact nodup_join_city ih cid
  | leave_city_step s cid _ ih => exact nodup_leave_city ih cid
  | broadcast_step s m _ ih => exact nodup_broadcast ih m
  | broadcast_others_step s m x _ ih => exact nodup_broadcast_to_others ih m x
  | game_message_step s cid m _ _ ih => exact nodup_handle ih cid m

theorem isSome_dlookup_dinsert {κ α : Type} [DecidableEq κ] {k : κ} (k' : κ)
    (v : α) (d : Dict κ α) (h : (dlookup k d).isSome = true) :
    (dlookup k (dinsert k' v d)).isSome = true := by
  by_cases he : k' = k
  · subst he; simp [dlookup_dinsert_self]
  · rw [dlookup_dinsert_ne v d he]; exact h

theorem regclosed_connect {s : CMState} (h : RegClosed s) (ws : WS)
    (cid : String) : RegClosed (connect s ws cid).1 := by
  obtain ⟨h1, h2, h3⟩ := h
  exact ⟨fun p hp => isSome_dlookup_dinsert cid ws _ (h1 p hp),
    fun gm hgm c hc => isSome_dlookup_dinsert cid ws _ (h2 gm hgm c hc),
    fun c hc => isSome_dlookup_dinsert cid ws _ (h3 c hc)⟩

theorem registered_disconnect_ne {s : CMState} {c cid : String} (hc : c ≠ cid) :
    registered (disconnect s cid) c = registered s c := by
  show (dlookup c (disconnect s cid).active_connections).isSome = _
  rw [show (disconnect s cid).active_connections =
      (if (dlookup cid s.active_connections).isSome = true then
        dremove cid s.active_connections
      else s.active_connections) from rfl]
  split
  · rw [dlookup_dremove_ne _ (Ne.symm hc)]; rfl
  · rfl

theorem regclosed_disconnect {s : CMState} (hn : NodupState s)
    (h : RegClosed s) (cid : String) : RegClosed (disconnect s cid) := by
  obtain ⟨h1, h2, h3⟩ := h
  refine ⟨?_, ?_, ?_⟩
  · intro p hp
    rw [show (disconnect s cid).player_data =
        (if (dlookup cid s.player_data).isSome = true then
          dremove cid s.player_data
        else s.player_data) from rfl] at hp
    by_cases hcid : (dlookup cid s.player_data).isSome = true
    · rw [if_pos hcid] at hp
      obtain ⟨hp0, hne⟩ := mem_dremove hn.2.1 hp
      rw [registered_disconnect_ne hne]
      exact h1 p hp0
    · rw [if_neg hcid] at hp
      have hne : p.1 ≠ cid := by
        intro he
        exact hcid (he ▸ dlookup_isSome_of_mem hp)
      rw [registered_disconnect_ne hne]
      exact h1 p hp
  · intro gm hgm c hc
    rw [show (disconnect s cid).guild_channels = s.guild_channels.map
        (fun gm => (gm.1, if cid ∈ gm.2 then gm.2.erase cid else gm.2)) from rfl] at hgm
    obtain ⟨gm0, hgm0, hmap⟩ := List.mem_map.mp hgm
    rw [← hmap] at hc
    have hms : c ∈ gm0.2 ∧ c ≠ cid := by
      by_cases hin : cid ∈ gm0.2
      · simp only [if_pos hin] at hc
        have := (hn.2.2.2.2 gm0 hgm0).mem_erase_iff.mp hc
        exact ⟨this.2, this.1⟩
      · simp only [if_neg hin] at hc
        exact ⟨hc, fun he => hin (he ▸ hc)⟩
    rw [registered_disconnect_ne hms.2]
    exact h2 gm0 hgm0 c hms.1
  · intro c hc
    rw [show (disconnect s cid).city_presence =
        (if cid ∈ s.city_presence then s.city_presence.erase cid
         else s.city_presence) from rfl] at hc
    have hms : c ∈ s.city_presence ∧ c ≠ cid := by
      by_cases hin : cid ∈ s.city_presence
      · rw [if_pos hin] at hc
        have := hn.2.2.2.1.mem_erase_iff.mp hc
        exact ⟨this.2, this.1⟩
      · rw [if_neg hin] at hc
        exact ⟨hc, fun he => hin (he ▸ hc)⟩
    rw [registered_disconnect_ne hms.2]
    exact h3 c hms.1

theorem regclosed_store {s : CMState} (h : RegClosed s) {cid : String}
    (d : Payload) (hreg : registered s cid = true) :
    RegClosed (store_player_data s cid d) := by
  obtain ⟨h1, h2, h3⟩ := h
  refine ⟨?_, h2, h3⟩
  intro p hp
  rcases mem_dinsert hp with he | he
  · rw [he]; exact hreg
  · exact h1 p he

theorem regclosed_join_guild {s : CMState} (h : RegClosed s) {cid : String}
    (g : Int) (hreg : registered s cid = true) :
    RegClosed (join_guild_channel s cid g) := by
  obtain ⟨h1, h2, h3⟩ := h
  set channels :=
    (if (dlookup g s.guild_channels).isSome = true then s.guild_channels
     else dinsert g [] s.guild_channels) with hch
  have hcm : ∀ gm ∈ channels, ∀ c ∈ gm.2, registered s c = true := by
    intro gm hgm
    rw [hch] at hgm
    split at hgm
    · exact h2 gm hgm
    · rcases mem_dinsert hgm with he | he
      · intro c hc; rw [he] at hc; simp at hc
      · exact h2 gm he
  rw [show join_guild_channel s cid g =
      (match dlookup g channels with
       | some members =>
           if cid ∈ members then { s with guild_channels := channels }
           else { s with guild_channels :=
              (dinsert g (members ++ [cid]) channels) }
       | none => { s with guild_channels := channels }) from rfl]
  cases hg : dlookup g channels with
  | none => simp only [hg]; exact ⟨h1, hcm, h3⟩
  | some members =>
      simp only [hg]
      by_cases hmem : cid ∈ members
      · rw [if_pos hmem]; exact ⟨h1, hcm, h3⟩
      · rw [if_neg hmem]
        refine ⟨h1, ?_, h3⟩
        intro gm hgm c hc
        rcases mem_dinsert hgm with he | he
        · rw [he] at hc
          rcases List.mem_append.mp hc with hc | hc
          · exact hcm (g, members) (mem_of_dlookup hg) c hc
          · rw [List.mem_singleton.mp hc]; exact hreg
        · exact hcm gm he c hc

theorem regclosed_leave_guild {s : CMState} (h : RegClosed s) (cid : String)
    (g : Int) : RegClosed (leave_guild_channel s cid g) := by
  obtain ⟨h1, h2, h3⟩ := h
  cases hg : dlookup g s.guild_channels with
  | none =>
      simp only [leave_guild_channel, hg]
      exact ⟨h1, h2, h3⟩
  | some members =>
      by_cases hmem : cid ∈ members
      · simp only [leave_guild_channel, hg, if_pos hmem]
        refine ⟨h1, ?_, h3⟩
        intro gm hgm c hc
        rcases mem_dinsert hgm with he | he
        · rw [he] at hc
          exact h2 (g, members) (mem_of_dlookup hg) c (List.mem_of_mem_erase hc)
        · exact h2 gm he c hc
      · simp only [leave_guild_channel, hg, if_neg hmem]
        exact ⟨h1, h2, h3⟩

theorem regclosed_join_city {s : CMState} (h : RegClosed s) {cid : String}
    (hreg : registered s cid = true) : RegClosed (join_city s cid) := by
  obtain ⟨h1, h2, h3⟩ := h
  rw [join_city]
  by_cases hmem : cid ∈ s.city_presence
  · rw [if_pos hmem]; exact ⟨h1, h2, h3⟩
  · rw [if_neg hmem]
    refine ⟨h1, h2, ?_⟩
    intro c hc
    rcases List.mem_append.mp hc with hc | hc
    · exact h3 c hc
    · rw [List.mem_singleton.mp hc]; exact hreg

theorem regclosed_leave_city {s : CMState} (h : RegClosed s) (cid : String) :
    RegClosed (leave_city s cid) := by
  obtain ⟨h1, h2, h3⟩ := h
  rw [leave_city]
  by_cases hmem : cid ∈ s.city_presence
  · rw [if_pos hmem]
    exact ⟨h1, h2, fun c hc => h3 c (List.mem_of_mem_erase hc)⟩
  · rw [if_neg hmem]; exact ⟨h1, h2, h3⟩

theorem regclosed_handle {s : CMState} (h : RegClosed s) {cid : String}
    (m : GameMessage) (hreg : registered s cid = true) (hok : allOk s) :
    RegClosed (handle_game_message s cid m).state := by
  rcases handle_state_cases s cid m with h1 | ⟨msg, h1⟩ | ⟨pd, msg, _, h1⟩ |
    ⟨msg, _, h1⟩ | ⟨msg, h1⟩ | h1 <;> rw [h1]
  · exact regclosed_store h m.mdata hreg
  · rw [broadcast_to_others_ok (store_player_data s cid m.mdata) msg cid hok]
    exact regclosed_store h m.mdata hreg
  · rw [broadcast_to_others_ok
      { s with player_data := dinsert cid (dupdate pd m.mdata) s.player_data }
      msg cid hok]
    obtain ⟨h1', h2', h3'⟩ := h
    refine ⟨?_, h2', h3'⟩
    intro p hp
    rcases mem_dinsert hp with he | he
    · rw [he]; exact hreg
    · exact h1' p he
  · rw [broadcast_to_others_ok _ msg cid hok]; exact h
  · rw [broadcast_ok _ msg hok]; exact h
  · exact h

/-- Along runs where broadcasting never hits a failing connection, no
presence record or room entry outlives its connection. -/
theorem reachok_regclosed {s : CMState} (h : ReachOk s) : RegClosed s := by
  induction h with
  | init => exact ⟨by simp [initState], by simp [initState], by simp [initState]⟩
  | connect_step s ws cid _ ih => exact regclosed_connect ih ws cid
  | disconnect_step s cid hs ih =>
      exact regclosed_disconnect (reach_nodup (reachok_reach hs)) ih cid
  | store_step s cid d _ hr ih => exact regclosed_store ih d hr
  | join_guild_step s cid g _ hr ih => exact regclosed_join_guild ih g hr
  | leave_guild_step s cid g _ ih => exact regclosed_leave_guild ih cid g
  | join_city_step s cid _ hr ih => exact regclosed_join_city ih hr
  | leave_city_step s cid _ ih => exact regclosed_leave_city ih cid
  | broadcast_step s m _ hok ih => rw [broadcast_ok s m hok]; exact ih
  | broadcast_others_step s m x _ hok ih =>
      rw [broadcast_to_others_ok s m x hok]; exact ih
  | game_message_step s cid m _ hr hok ih => exact regclosed_handle ih m hr hok

end Reachability

section ClaimSupport

open ConnectionManager

theorem cmstate_eq {a b : CMState}
    (h1 : a.active_connections = b.active_connections)
    (h2 : a.player_data = b.player_data)
    (h3 : a.guild_channels = b.guild_channels)
    (h4 : a.city_presence = b.city_presence) : a = b := by
  cases a; cases b; simp_all

theorem filter_key_nil {κ α : Type} [DecidableEq κ] {k : κ} {d : Dict κ α}
    (h : k ∉ dkeys d) : d.filter (fun p => decide (p.1 = k)) = [] := by
  induction d with
  | nil => rfl
  | cons p d ih =>
      have hp : p.1 ≠ k := fun he => h (he ▸ mem_dkeys_of_mem (List.mem_cons_self p d))
      have h' : k ∉ dkeys d := fun hx =>
        h (List.mem_cons_of_mem p.1 (by exact hx))
      rw [List.filter_cons_of_neg (by simp [hp])]
      exact ih h'

theorem filter_key_eq {κ α : Type} [DecidableEq κ] {k : κ} {v : α} {d : Dict κ α}
    (hnd : (dkeys d).Nodup) (h : dlookup k d = some v) :
    d.filter (fun p => decide (p.1 = k)) = [(k, v)] := by
  induction d with
  | nil => simp [dlookup] at h
  | cons p d ih =>
      obtain ⟨k0, v0⟩ := p
      have hnd2 := dkeys_nodup_cons hnd
      by_cases hp : k0 = k
      · subst hp
        have hv : v0 = v := by simpa [dlookup] using h
        subst hv
        rw [List.filter_cons_of_pos (by simp)]
        rw [filter_key_nil (show k0 ∉ dkeys d from hnd2.1)]
      · have h' : dlookup k d = some v := by simpa [dlookup, hp] using h
        rw [List.filter_cons_of_neg (by simp [hp])]
        exact ih hnd2.2 h'

theorem filter_dinsert_ne {κ α : Type} [DecidableEq κ] (k : κ) (v : α)
    (d : Dict κ α) :
    (dinsert k v d).filter (fun p => decide (p.1 ≠ k)) =
      d.filter (fun p => decide (p.1 ≠ k)) := by
  induction d with
  | nil => simp [dinsert]
  | cons p d ih =>
      obtain ⟨k0, v0⟩ := p
      by_cases hp : k0 = k
      · subst hp
        rw [show dinsert k0 v ((k0, v0) :: d) = (k0, v) :: d by simp [dinsert]]
        rw [List.filter_cons_of_neg (by simp), List.filter_cons_of_neg (by simp)]
      · rw [show dinsert k v ((k0, v0) :: d) = (k0, v0) :: dinsert k v d by
          simp [dinsert, hp]]
        rw [List.filter_cons_of_pos (by simp [hp]),
          List.filter_cons_of_pos (by simp [hp]), ih]

/-- Removing a client that nothing references is a no-op. -/
theorem disconnect_no_op {s : CMState} (cid : String)
    (h1 : dlookup cid s.active_connections = none)
    (h2 : dlookup cid s.player_data = none)
    (h3 : ∀ gm ∈ s.guild_channels, cid ∉ gm.2)
    (h4 : cid ∉ s.city_presence) :
    disconnect s cid = s := by
  refine cmstate_eq ?_ ?_ ?_ ?_
  · show (if (dlookup cid s.active_connections).isSome = true then
        dremove cid s.active_connections
      else s.active_connections) = s.active_connections
    rw [h1]; rfl
  · show (if (dlookup cid s.player_data).isSome = true then
        dremove cid s.player_data
      else s.player_data) = s.player_data
    rw [h2]; rfl
  · show s.guild_channels.map
        (fun gm => (gm.1, if cid ∈ gm.2 then gm.2.erase cid else gm.2)) =
      s.guild_channels
    rw [List.map_congr_left (g := id) (fun gm hgm => by simp [h3 gm hgm])]
    exact List.map_id s.guild_channels
  · show (if cid ∈ s.city_presence then s.city_presence.erase cid
      else s.city_presence) = s.city_presence
    rw [if_neg h4]

/-- A `send_personal_message` loop over `pre ++ failing :: rest` delivers
to the healthy prefix, then the failing write raises: nothing after it is
delivered. -/
theorem sendEach_break (s : CMState) (msg : OutMsg) (cid : String) (wsb : WS)
    (hcid : dlookup cid s.active_connections = some wsb)
    (hbad : wsb.ok = false) :
    ∀ (pre : List (String × WS)) (rest : List String),
      (∀ p ∈ pre, dlookup p.1 s.active_connections = some p.2 ∧ p.2.ok = true) →
      sendEach s msg (pre.map Prod.fst ++ cid :: rest) =
        (pre.map (fun p => Ev.sentText p.1 p.2 msg), some cid) := by
  intro pre
  induction pre with
  | nil =>
      intro rest _
      show sendEach s msg (cid :: rest) = ([], some cid)
      simp only [sendEach,
        show send_personal_message s msg cid = Except.error cid from by
          simp [send_personal_message, hcid, hbad]]
  | cons p pre ih =>
      intro rest hpre
      have hp := hpre p (List.mem_cons_self p pre)
      show sendEach s msg (p.1 :: (pre.map Prod.fst ++ cid :: rest)) = _
      simp only [sendEach,
        show send_personal_message s msg p.1 =
            Except.ok [Ev.sentText p.1 p.2 msg] from by
          simp [send_personal_message, hp.1, hp.2]]
      rw [ih rest (fun q hq => hpre q (List.mem_cons_of_mem p hq))]
      simp

/-- The spawn catch-up loop, when the new client's connection is healthy:
one send to the new client per other stored player, in store order, and no
raise. -/
theorem sendExisting_ok (s : CMState) (C rt : String) (wsC : WS)
    (hreg : dlookup C s.active_connections = some wsC) (hok : wsC.ok = true) :
    ∀ entries : Dict String Payload,
      sendExisting s C rt entries =
        ((entries.filter (fun p => decide (p.1 ≠ C))).map
          (fun p => Ev.sentText C wsC (taggedMessage rt p.1 p.2)), none) := by
  intro entries
  induction entries with
  | nil => rfl
  | cons p entries ih =>
      obtain ⟨eid, edata⟩ := p
      by_cases he : eid ≠ C
      · simp only [sendExisting, if_pos he,
          show send_personal_message s (taggedMessage rt eid edata) C =
              Except.ok [Ev.sentText C wsC (taggedMessage rt eid edata)] from by
            simp [send_personal_message, hreg, hok]]
        rw [ih, List.filter_cons_of_pos (by simpa using he)]
        simp
      · rw [show sendExisting s C rt ((eid, edata) :: entries) =
            sendExisting s C rt entries from by simp [sendExisting, he]]
        rw [ih, List.filter_cons_of_neg (by simpa using he)]

/-- `broadcast_to_others` touches only `active_connections`. -/
theorem broadcast_to_others_fields (s : CMState) (m : OutMsg) (x : String) :
    (broadcast_to_others s m x).1.player_data = s.player_data ∧
    (broadcast_to_others s m x).1.guild_channels = s.guild_channels ∧
    (broadcast_to_others s m x).1.city_presence = s.city_presence := by
  obtain ⟨A, hA, _⟩ := btoFold_shape m x s.active_connections s []
  rw [broadcast_to_others, hA]
  exact ⟨rfl, rfl, rfl⟩

/-- `handle_game_message` on a spawn, when the spawning client's connection
is healthy and no registered connection fails: store the payload first,
then the catch-up sends to the new client (one per other stored player, in
store order), then the fan-out of the announcement to every other
connection; nothing raises and only the presence store changes. -/
theorem handle_spawn_ok (s : CMState) (C : String) (wsC : WS) (d : Payload)
    (mt rt : String)
    (hcase : mt = "player_spawn" ∧ rt = "player_joined" ∨
             mt = "player_spawn_3d" ∧ rt = "player_joined_3d")
    (hreg : dlookup C s.active_connections = some wsC)
    (hok : allOk s) :
    handle_game_message s C ⟨some mt, d⟩ =
      { state := store_player_data s C d,
        events :=
          (s.player_data.filter (fun p => decide (p.1 ≠ C))).map
            (fun p => Ev.sentText C wsC (taggedMessage rt p.1 p.2)) ++
          (s.active_connections.filter (fun p => decide (p.1 ≠ C))).map
            (fun p => Ev.sentText p.1 p.2 (taggedMessage rt C d)),
        raised := none } := by
  have hwsok : wsC.ok = true := hok (C, wsC) (mem_of_dlookup hreg)
  have hse := sendExisting_ok (store_player_data s C d) C rt wsC hreg hwsok
    (get_all_players (store_player_data s C d))
  have hbto := broadcast_to_others_ok (store_player_data s C d)
    (taggedMessage rt C d) C hok
  have hfil : (get_all_players (store_player_data s C d)).filter
      (fun p => decide (p.1 ≠ C)) =
      s.player_data.filter (fun p => decide (p.1 ≠ C)) :=
    filter_dinsert_ne C d s.player_data
  have hfil2 : List.filter (fun p => !decide (p.1 = C))
      (get_all_players (store_player_data s C d)) =
      List.filter (fun p => !decide (p.1 = C)) s.player_data := by
    simpa using hfil
  have hact : (store_player_data s C d).active_connections =
      s.active_connections := rfl
  rcases hcase with ⟨hmt, hrt⟩ | ⟨hmt, hrt⟩ <;> subst hmt <;> subst hrt
  · simp [handle_game_message, hse, hbto, hfil2, hact]
  · simp [handle_game_message, hse, hbto, hfil2, hact]

end ClaimSupport

section Claims

open ConnectionManager

/-- Claim C1, counterexample: with connection `(1, ok)` registered under
`"a"`, registering `(2, ok)` under `"a"` emits only the accept of the new
connection and no close of the prior one, even though the new connection
does become the registered one — refuting "the prior connection is closed
before the registration completes". -/
theorem C1_counterexample :
    (connect (connect initState ⟨1, true⟩ "a").1 ⟨2, true⟩ "a").2 =
      [Ev.accepted ⟨2, true⟩] ∧
    Ev.closedConn ⟨1, true⟩ ∉
      (connect (connect initState ⟨1, true⟩ "a").1 ⟨2, true⟩ "a").2 ∧
    dlookup "a"
        (connect (connect initState ⟨1, true⟩ "a").1 ⟨2, true⟩ "a").1.active_connections =
      some ⟨2, true⟩ :=
  ⟨rfl, by decide, by decide⟩

/-- Claim C1 (amended): `connect` replaces the prior connection under the
id but does not close it: afterwards the new connection is the unique
registered connection for the id, and the only event emitted is the accept
of the new connection — never a close. -/
theorem C1_register_replaces (s : CMState) (ws : WS) (cid : String)
    (hnd : (dkeys s.active_connections).Nodup) :
    dlookup cid (connect s ws cid).1.active_connections = some ws ∧
    (connect s ws cid).1.active_connections.filter
      (fun p => decide (p.1 = cid)) = [(cid, ws)] ∧
    (connect s ws cid).2 = [Ev.accepted ws] := by
  refine ⟨dlookup_dinsert_self cid ws s.active_connections, ?_, rfl⟩
  exact filter_key_eq (dkeys_nodup_dinsert ws hnd)
    (dlookup_dinsert_self cid ws s.active_connections)

/-- Witness for C1: the amended theorem at a concrete state that already
holds a connection under the id. -/
theorem C1_register_replaces_witness :
    (dkeys (connect initState ⟨1, true⟩ "a").1.active_connections).Nodup ∧
    (dlookup "a"
        (connect (connect initState ⟨1, true⟩ "a").1 ⟨2, true⟩ "a").1.active_connections =
      some ⟨2, true⟩ ∧
    (connect (connect initState ⟨1, true⟩ "a").1 ⟨2, true⟩ "a").1.active_connections.filter
      (fun p => decide (p.1 = "a")) = [("a", ⟨2, true⟩)] ∧
    (connect (connect initState ⟨1, true⟩ "a").1 ⟨2, true⟩ "a").2 =
      [Ev.accepted ⟨2, true⟩]) :=
  ⟨by decide, C1_register_replaces (connect initState ⟨1, true⟩ "a").1
    ⟨2, true⟩ "a" (by decide)⟩

/-- Claim C2: after `disconnect cid` on any reachable state the client is
gone from the registry, the presence store, every guild channel and the
city list; a second `disconnect` of the same id changes nothing (and, by
`disconnect_no_op`, disconnecting an id nothing references is a no-op). -/
theorem C2_unregister_cleanup (s : CMState) (hs : Reach s) (cid : String) :
    dlookup cid (disconnect s cid).active_connections = none ∧
    dlookup cid (disconnect s cid).player_data = none ∧
    (∀ g ms, dlookup g (disconnect s cid).guild_channels = some ms → cid ∉ ms) ∧
    cid ∉ (disconnect s cid).city_presence ∧
    disconnect (disconnect s cid) cid = disconnect s cid := by
  have hn := reach_nodup hs
  have h1 : dlookup cid (disconnect s cid).active_connections = none := by
    show dlookup cid (if (dlookup cid s.active_connections).isSome = true then
        dremove cid s.active_connections else s.active_connections) = none
    by_cases hc : (dlookup cid s.active_connections).isSome = true
    · rw [if_pos hc]; exact dlookup_dremove_self hn.1
    · rw [if_neg hc]
      cases ho : dlookup cid s.active_connections with
      | none => rfl
      | some w => rw [ho] at hc; simp at hc
  have h2 : dlookup cid (disconnect s cid).player_data = none := by
    show dlookup cid (if (dlookup cid s.player_data).isSome = true then
        dremove cid s.player_data else s.player_data) = none
    by_cases hc : (dlookup cid s.player_data).isSome = true
    · rw [if_pos hc]; exact dlookup_dremove_self hn.2.1
    · rw [if_neg hc]
      cases ho : dlookup cid s.player_data with
      | none => rfl
      | some w => rw [ho] at hc; simp at hc
  have h3 : ∀ gm ∈ (disconnect s cid).guild_channels, cid ∉ gm.2 := by
    intro gm hgm
    rw [show (disconnect s cid).guild_channels = s.guild_channels.map
        (fun gm => (gm.1, if cid ∈ gm.2 then gm.2.erase cid else gm.2)) from rfl] at hgm
    obtain ⟨gm0, hgm0, hmap⟩ := List.mem_map.mp hgm
    rw [← hmap]
    by_cases hin : cid ∈ gm0.2
    · simpa [hin] using (hn.2.2.2.2 gm0 hgm0).not_mem_erase
    · simp only [if_neg hin]
      exact hin
  have h4 : cid ∉ (disconnect s cid).city_presence := by
    show cid ∉ (if cid ∈ s.city_presence then s.city_presence.erase cid
      else s.city_presence)
    by_cases hin : cid ∈ s.city_presence
    · rw [if_pos hin]; exact hn.2.2.2.1.not_mem_erase
    · rw [if_neg hin]; exact hin
  refine ⟨h1, h2, ?_, h4, ?_⟩
  · intro g ms hg
    exact h3 (g, ms) (mem_of_dlookup hg)
  · exact disconnect_no_op cid h1 h2 h3 h4

/-- Witness for C2: the theorem at the reachable state holding one
connection. -/
theorem C2_unregister_cleanup_witness :
    Reach (connect initState ⟨1, true⟩ "a").1 ∧
    (dlookup "a"
        (disconnect (connect initState ⟨1, true⟩ "a").1 "a").active_connections = none ∧
    dlookup "a" (disconnect (connect initState ⟨1, true⟩ "a").1 "a").player_data = none ∧
    (∀ g ms, dlookup g
        (disconnect (connect initState ⟨1, true⟩ "a").1 "a").guild_channels =
      some ms → "a" ∉ ms) ∧
    "a" ∉ (disconnect (connect initState ⟨1, true⟩ "a").1 "a").city_presence ∧
    disconnect (disconnect (connect initState ⟨1, true⟩ "a").1 "a") "a" =
      disconnect (connect initState ⟨1, true⟩ "a").1 "a") :=
  ⟨Reach.connect_step initState ⟨1, true⟩ "a" Reach.init,
   C2_unregister_cleanup (connect initState ⟨1, true⟩ "a").1
     (Reach.connect_step initState ⟨1, true⟩ "a" Reach.init) "a"⟩

/-- Claim C3, counterexample: a reachable state (connect a client whose
writes fail, store its presence, then broadcast) in which the broadcast's
failure-eviction removed the client from the registry but its presence
record survived — a presence entry outlived its connection. -/
theorem C3_counterexample :
    Reach (broadcast (store_player_data
        (connect initState ⟨1, false⟩ "a").1 "a" []) (OutMsg.raw "hi")).1 ∧
    dlookup "a" (broadcast (store_player_data
        (connect initState ⟨1, false⟩ "a").1 "a" []) (OutMsg.raw "hi")).1.player_data =
      some [] ∧
    registered (broadcast (store_player_data
        (connect initState ⟨1, false⟩ "a").1 "a" []) (OutMsg.raw "hi")).1 "a" = false := by
  refine ⟨?_, by decide, by decide⟩
  exact Reach.broadcast_step _ _ (Reach.store_step _ "a" []
    (Reach.connect_step initState ⟨1, false⟩ "a" Reach.init) (by decide))

/-- Claim C3 (amended): along runs in which no broadcast delivery fails
(the failure-eviction branches are never taken), every client with a
presence record or a room membership is currently registered.  The
eviction branch itself breaks the invariant, since it removes only the
registry entry — see the counterexample. -/
theorem C3_presence_implies_registered (s : CMState) (hs : ReachOk s) :
    (∀ p ∈ s.player_data, registered s p.1 = true) ∧
    (∀ gm ∈ s.guild_channels, ∀ c ∈ gm.2, registered s c = true) ∧
    (∀ c ∈ s.city_presence, registered s c = true) :=
  reachok_regclosed hs

/-- Witness for C3's amended theorem: a failure-free run that stores a
presence record. -/
theorem C3_presence_implies_registered_witness :
    ReachOk (store_player_data (connect initState ⟨1, true⟩ "a").1 "a"
      [("hp", JVal.num 7)]) ∧
    ((∀ p ∈ (store_player_data (connect initState ⟨1, true⟩ "a").1 "a"
        [("hp", JVal.num 7)]).player_data,
      registered (store_player_data (connect initState ⟨1, true⟩ "a").1 "a"
        [("hp", JVal.num 7)]) p.1 = true) ∧
    (∀ gm ∈ (store_player_data (connect initState ⟨1, true⟩ "a").1 "a"
        [("hp", JVal.num 7)]).guild_channels, ∀ c ∈ gm.2,
      registered (store_player_data (connect initState ⟨1, true⟩ "a").1 "a"
        [("hp", JVal.num 7)]) c = true) ∧
    (∀ c ∈ (store_player_data (connect initState ⟨1, true⟩ "a").1 "a"
        [("hp", JVal.num 7)]).city_presence,
      registered (store_player_data (connect initState ⟨1, true⟩ "a").1 "a"
        [("hp", JVal.num 7)]) c = true)) := by
  have hrok : ReachOk (store_player_data (connect initState ⟨1, true⟩ "a").1 "a"
      [("hp", JVal.num 7)]) :=
    ReachOk.store_step _ "a" [("hp", JVal.num 7)]
      (ReachOk.connect_step initState ⟨1, true⟩ "a" ReachOk.init) (by decide)
  exact ⟨hrok, C3_presence_implies_registered _ hrok⟩

/-- Claim C4, counterexample: with failing connection "a" and healthy "b"
both members of guild channel 1, `send_personal_message` to "a" raises to
its caller (refuting "never raises"), and `broadcast_to_guild` propagates
the exception before delivering to "b" (refuting per-target isolation). -/
theorem C4_counterexample :
    send_personal_message
      { active_connections := [("a", ⟨1, false⟩), ("b", ⟨2, true⟩)],
        player_data := [], guild_channels := [(1, ["a", "b"])],
        city_presence := [] } (OutMsg.raw "hello") "a" = Except.error "a" ∧
    broadcast_to_guild
      { active_connections := [("a", ⟨1, false⟩), ("b", ⟨2, true⟩)],
        player_data := [], guild_channels := [(1, ["a", "b"])],
        city_presence := [] } 1 (OutMsg.raw "hello") = ([], some "a") :=
  ⟨rfl, rfl⟩

/-- Claim C4 (amended): a write failure in `send_personal_message` raises
to the caller (no unregistration happens), and `broadcast_to_guild` stops
at the first failing member: members before it are delivered, the failure
propagates, and members after it receive nothing. -/
theorem C4_sendto_raises (s : CMState) (msg : OutMsg) (cid : String)
    (wsb : WS) (g : Int) (pre : List (String × WS)) (rest : List String)
    (hws : dlookup cid s.active_connections = some wsb)
    (hbad : wsb.ok = false)
    (hpre : ∀ p ∈ pre, dlookup p.1 s.active_connections = some p.2 ∧ p.2.ok = true)
    (hch : dlookup g s.guild_channels = some (pre.map Prod.fst ++ cid :: rest)) :
    send_personal_message s msg cid = Except.error cid ∧
    broadcast_to_guild s g msg =
      (pre.map (fun p => Ev.sentText p.1 p.2 msg), some cid) := by
  constructor
  · simp [send_personal_message, hws, hbad]
  · rw [show broadcast_to_guild s g msg =
        (match dlookup g s.guild_channels with
         | some members => sendEach s msg members
         | none => ([], none)) from rfl]
    rw [hch]
    exact sendEach_break s msg cid wsb hws hbad pre rest hpre

/-- Witness for C4's amended theorem: on `stC4`, "a" is delivered, the
failure at "b" raises, and "c" gets nothing. -/
theorem C4_sendto_raises_witness :
    dlookup "b" stC4.active_connections = some ⟨2, false⟩ ∧
    (⟨2, false⟩ : WS).ok = false ∧
    (∀ p ∈ [(("a" : String), (⟨1, true⟩ : WS))],
      dlookup p.1 stC4.active_connections = some p.2 ∧ p.2.ok = true) ∧
    dlookup 9 stC4.guild_channels =
      some ([(("a" : String), (⟨1, true⟩ : WS))].map Prod.fst ++ "b" :: ["c"]) ∧
    (send_personal_message stC4 (OutMsg.raw "m") "b" = Except.error "b" ∧
    broadcast_to_guild stC4 9 (OutMsg.raw "m") =
      ([(("a" : String), (⟨1, true⟩ : WS))].map
        (fun p => Ev.sentText p.1 p.2 (OutMsg.raw "m")), some "b")) :=
  ⟨by decide, rfl, by decide, by decide,
   C4_sendto_raises stC4 (OutMsg.raw "m") "b" ⟨2, false⟩ 9
     [(("a" : String), (⟨1, true⟩ : WS))] ["c"]
     (by decide) rfl (by decide) (by decide)⟩

/-- Claim C5: on a state with unique connection keys, `broadcast_to_others`
sends the message exactly to the non-excluded targets whose write succeeds
(in registry order); a failing target does not prevent delivery to any
other target; the excluded id receives nothing; and each failing
non-excluded target is removed from the registry. -/
theorem C5_broadcast_except (s : CMState) (msg : OutMsg) (X : String)
    (hnd : (dkeys s.active_connections).Nodup) :
    (broadcast_to_others s msg X).2 =
      (s.active_connections.filter (fun p => decide (p.1 ≠ X) && p.2.ok)).map
        (fun p => Ev.sentText p.1 p.2 msg) ∧
    (broadcast_to_others s msg X).1.active_connections =
      s.active_connections.filter (fun p => decide (p.1 = X) || p.2.ok) ∧
    (∀ p ∈ s.active_connections, p.1 ≠ X → p.2.ok = true →
      Ev.sentText p.1 p.2 msg ∈ (broadcast_to_others s msg X).2) ∧
    (∀ ws m, Ev.sentText X ws m ∉ (broadcast_to_others s msg X).2) ∧
    (∀ p ∈ s.active_connections, p.1 ≠ X → p.2.ok = false →
      dlookup p.1 (broadcast_to_others s msg X).1.active_connections = none) := by
  have hspec := broadcast_to_others_spec s msg X hnd
  have hev : (broadcast_to_others s msg X).2 =
      (s.active_connections.filter (fun p => decide (p.1 ≠ X) && p.2.ok)).map
        (fun p => Ev.sentText p.1 p.2 msg) := by rw [hspec]
  have hst : (broadcast_to_others s msg X).1.active_connections =
      s.active_connections.filter (fun p => decide (p.1 = X) || p.2.ok) := by
    rw [hspec]
  refine ⟨hev, hst, ?_, ?_, ?_⟩
  · intro p hp hne hok
    rw [hev]
    exact List.mem_map.mpr ⟨p, List.mem_filter.mpr ⟨hp, by simp [hne, hok]⟩, rfl⟩
  · intro ws m hmem
    rw [hev] at hmem
    obtain ⟨q, hq, he⟩ := List.mem_map.mp hmem
    have hq2 := (List.mem_filter.mp hq).2
    simp only [Ev.sentText.injEq] at he
    rw [he.1] at hq2
    simp at hq2
  · intro p hp hne hbad
    rw [hst, dlookup_eq_none_iff]
    intro hk
    obtain ⟨v, hv⟩ := mem_dkeys_iff.mp hk
    have hv2 := List.mem_filter.mp hv
    have : (p.1, v) = p := entry_eq_of_key_eq hnd hv2.1 hp rfl
    rw [this] at hv2
    rw [hbad] at hv2
    simp [hne] at hv2

/-- Witness for C5: on `stC5` with "x" excluded and "b" failing, "a" and
"c" are still delivered and "b" is evicted. -/
theorem C5_broadcast_except_witness :
    (dkeys stC5.active_connections).Nodup ∧
    ((broadcast_to_others stC5 (OutMsg.raw "m") "x").2 =
      (stC5.active_connections.filter (fun p => decide (p.1 ≠ "x") && p.2.ok)).map
        (fun p => Ev.sentText p.1 p.2 (OutMsg.raw "m")) ∧
    (broadcast_to_others stC5 (OutMsg.raw "m") "x").1.active_connections =
      stC5.active_connections.filter (fun p => decide (p.1 = "x") || p.2.ok) ∧
    (∀ p ∈ stC5.active_connections, p.1 ≠ "x" → p.2.ok = true →
      Ev.sentText p.1 p.2 (OutMsg.raw "m") ∈
        (broadcast_to_others stC5 (OutMsg.raw "m") "x").2) ∧
    (∀ ws m, Ev.sentText "x" ws m ∉
        (broadcast_to_others stC5 (OutMsg.raw "m") "x").2) ∧
    (∀ p ∈ stC5.active_connections, p.1 ≠ "x" → p.2.ok = false →
      dlookup p.1
        (broadcast_to_others stC5 (OutMsg.raw "m") "x").1.active_connections =
        none)) :=
  ⟨by decide, C5_broadcast_except stC5 (OutMsg.raw "m") "x" (by decide)⟩

/-- Claim C6, counterexample: client "a" is connected but has no presence
record; handling `player_move` with payload `x ↦ 1` creates no record —
the update is dropped rather than treated as an implicit spawn (`Put`),
refuting the claim; the handler does return normally. -/
theorem C6_counterexample :
    dlookup "a" (handle_game_message (connect initState ⟨1, true⟩ "a").1 "a"
      ⟨some "player_move", [("x", JVal.num 1)]⟩).state.player_data = none ∧
    dlookup "a" (handle_game_message (connect initState ⟨1, true⟩ "a").1 "a"
      ⟨some "player_move", [("x", JVal.num 1)]⟩).state.player_data ≠
      some [("x", JVal.num 1)] ∧
    (handle_game_message (connect initState ⟨1, true⟩ "a").1 "a"
      ⟨some "player_move", [("x", JVal.num 1)]⟩).raised = none :=
  ⟨by decide, by decide, by decide⟩

/-- Claim C6 (amended): a move message (either variant) from a client with
no presence record does not crash — the handler returns normally, with the
move notification still fanned out — but the update is silently dropped:
the presence store is left unchanged and no record is created. -/
theorem C6_move_before_spawn (s : CMState) (cid : String) (d : Payload)
    (is3d : Bool) (hno : dlookup cid s.player_data = none) :
    (handle_game_message s cid
      ⟨some (if is3d then "player_move_3d" else "player_move"), d⟩).raised =
      none ∧
    (handle_game_message s cid
      ⟨some (if is3d then "player_move_3d" else "player_move"), d⟩).state.player_data =
      s.player_data ∧
    handle_game_message s cid
        ⟨some (if is3d then "player_move_3d" else "player_move"), d⟩ =
      { state := (broadcast_to_others s
          (taggedMessage (if is3d then "player_moved_3d" else "player_moved") cid d)
          cid).1,
        events := (broadcast_to_others s
          (taggedMessage (if is3d then "player_moved_3d" else "player_moved") cid d)
          cid).2,
        raised := none } := by
  have hmain : handle_game_message s cid
      ⟨some (if is3d then "player_move_3d" else "player_move"), d⟩ =
      { state := (broadcast_to_others s
          (taggedMessage (if is3d then "player_moved_3d" else "player_moved") cid d)
          cid).1,
        events := (broadcast_to_others s
          (taggedMessage (if is3d then "player_moved_3d" else "player_moved") cid d)
          cid).2,
        raised := none } := by
    cases is3d <;> simp [handle_game_message, hno]
  refine ⟨?_, ?_, hmain⟩
  · rw [hmain]
  · rw [hmain]
    exact (broadcast_to_others_fields s
      (taggedMessage (if is3d then "player_moved_3d" else "player_moved") cid d)
      cid).1

/-- Witness for C6's amended theorem: connected client "a" with empty
presence store. -/
theorem C6_move_before_spawn_witness :
    dlookup "a" (connect initState ⟨1, true⟩ "a").1.player_data = none ∧
    ((handle_game_message (connect initState ⟨1, true⟩ "a").1 "a"
      ⟨some (if false then "player_move_3d" else "player_move"),
        [("x", JVal.num 1)]⟩).raised = none ∧
    (handle_game_message (connect initState ⟨1, true⟩ "a").1 "a"
      ⟨some (if false then "player_move_3d" else "player_move"),
        [("x", JVal.num 1)]⟩).state.player_data =
      (connect initState ⟨1, true⟩ "a").1.player_data ∧
    handle_game_message (connect initState ⟨1, true⟩ "a").1 "a"
        ⟨some (if false then "player_move_3d" else "player_move"),
          [("x", JVal.num 1)]⟩ =
      { state := (broadcast_to_others (connect initState ⟨1, true⟩ "a").1
          (taggedMessage (if false then "player_moved_3d" else "player_moved")
            "a" [("x", JVal.num 1)]) "a").1,
        events := (broadcast_to_others (connect initState ⟨1, true⟩ "a").1
          (taggedMessage (if false then "player_moved_3d" else "player_moved")
            "a" [("x", JVal.num 1)]) "a").2,
        raised := none }) :=
  ⟨rfl, C6_move_before_spawn (connect initState ⟨1, true⟩ "a").1 "a"
    [("x", JVal.num 1)] false rfl⟩

/-- Claim C7, counterexample: starting from an empty presence store,
`Merge(a, a↦1)` then `Merge(a, b↦2)` (two moves of connected client "a")
leaves no stored record at all — both merges are dropped — not the claimed
`a↦1, b↦2`. -/
theorem C7_counterexample :
    dlookup "a" (handle_game_message
      (handle_game_message (connect initState ⟨1, true⟩ "a").1 "a"
        ⟨some "player_move", [("a", JVal.num 1)]⟩).state "a"
      ⟨some "player_move", [("b", JVal.num 2)]⟩).state.player_data = none ∧
    dlookup "a" (handle_game_message
      (handle_game_message (connect initState ⟨1, true⟩ "a").1 "a"
        ⟨some "player_move", [("a", JVal.num 1)]⟩).state "a"
      ⟨some "player_move", [("b", JVal.num 2)]⟩).state.player_data ≠
      some [("a", JVal.num 1), ("b", JVal.num 2)] :=
  ⟨by decide, by decide⟩

/-- Claim C7 (amended): once a record exists, the move merge
(`dict.update`) never removes or overwrites a stored key absent from the
partial payload: the stored payload becomes `dupdate pd mv`, and any key
`k` of `pd` not in `mv` keeps its value; in particular
`Put(id, a↦1)` (spawn) followed by `Merge(id, b↦2)` yields `a↦1, b↦2` (see
the witness). -/
theorem C7_merge_preserves (s : CMState) (cid : String) (pd mv : Payload)
    (k : String) (v : JVal)
    (hpd : dlookup cid s.player_data = some pd)
    (hk : dlookup k pd = some v)
    (hmv : dlookup k mv = none) :
    dlookup cid (handle_game_message s cid
      ⟨some "player_move", mv⟩).state.player_data = some (dupdate pd mv) ∧
    dlookup k (dupdate pd mv) = some v := by
  constructor
  · have hmain : (handle_game_message s cid ⟨some "player_move", mv⟩).state =
        (broadcast_to_others
          { s with player_data := dinsert cid (dupdate pd mv) s.player_data }
          (taggedMessage "player_moved" cid mv) cid).1 := by
      simp [handle_game_message, hpd]
    rw [hmain,
      (broadcast_to_others_fields
        { s with player_data := dinsert cid (dupdate pd mv) s.player_data }
        (taggedMessage "player_moved" cid mv) cid).1]
    exact dlookup_dinsert_self cid (dupdate pd mv) s.player_data
  · rw [dlookup_dupdate_not_mem (dlookup_eq_none_iff.mp hmv)]
    exact hk

/-- Witness for C7's amended theorem: spawn "a" with `a↦1`, then move with
`b↦2`; the stored payload is exactly `a↦1, b↦2`. -/
theorem C7_merge_preserves_witness :
    dlookup "a" (handle_game_message (connect initState ⟨1, true⟩ "a").1 "a"
      ⟨some "player_spawn", [("a", JVal.num 1)]⟩).state.player_data =
      some [("a", JVal.num 1)] ∧
    dlookup "a" ([("a", JVal.num 1)] : Payload) = some (JVal.num 1) ∧
    dlookup "a" ([("b", JVal.num 2)] : Payload) = none ∧
    dupdate [("a", JVal.num 1)] [("b", JVal.num 2)] =
      [("a", JVal.num 1), ("b", JVal.num 2)] ∧
    (dlookup "a" (handle_game_message
        (handle_game_message (connect initState ⟨1, true⟩ "a").1 "a"
          ⟨some "player_spawn", [("a", JVal.num 1)]⟩).state "a"
        ⟨some "player_move", [("b", JVal.num 2)]⟩).state.player_data =
      some (dupdate [("a", JVal.num 1)] [("b", JVal.num 2)]) ∧
    dlookup "a" (dupdate [("a", JVal.num 1)] [("b", JVal.num 2)]) =
      some (JVal.num 1)) :=
  ⟨by decide, by decide, by decide, by decide,
   C7_merge_preserves
     (handle_game_message (connect initState ⟨1, true⟩ "a").1 "a"
       ⟨some "player_spawn", [("a", JVal.num 1)]⟩).state
     "a" [("a", JVal.num 1)] [("b", JVal.num 2)] "a" (JVal.num 1)
     (by decide) (by decide) (by decide)⟩

/-- Claim C8: a spawn (2-D or 3-D) from client `C` with a healthy
connection, on a duplicate-free registry where no send fails: the handler
stores `C`'s payload and raises nothing; the messages delivered to `C` are
exactly one "joined" message per previously-spawned other client, carrying
that client's id and stored presence — so nothing about `C` goes to `C`;
every other registered client — by `hpres` every other client with a
presence record — receives exactly one message, the "joined" announcement
about `C`; and the outbound kind mirrors the spawn variant. -/
theorem C8_spawn_fanout (s : CMState) (C : String) (wsC : WS) (d : Payload)
    (is3d : Bool)
    (hreg : dlookup C s.active_connections = some wsC)
    (hok : allOk s)
    (hnd : (dkeys s.active_connections).Nodup)
    (hpres : ∀ p ∈ s.player_data, p.1 ≠ C →
      (dlookup p.1 s.active_connections).isSome = true) :
    handle_game_message s C
        ⟨some (if is3d then "player_spawn_3d" else "player_spawn"), d⟩ =
      { state := store_player_data s C d,
        events :=
          (s.player_data.filter (fun p => decide (p.1 ≠ C))).map
            (fun p => Ev.sentText C wsC
              (taggedMessage (if is3d then "player_joined_3d" else "player_joined")
                p.1 p.2)) ++
          (s.active_connections.filter (fun p => decide (p.1 ≠ C))).map
            (fun p => Ev.sentText p.1 p.2
              (taggedMessage (if is3d then "player_joined_3d" else "player_joined")
                C d)),
        raised := none } ∧
    (handle_game_message s C
        ⟨some (if is3d then "player_spawn_3d" else "player_spawn"), d⟩).events.filter
        (fun e => decide (evTarget e = some C)) =
      (s.player_data.filter (fun p => decide (p.1 ≠ C))).map
        (fun p => Ev.sentText C wsC
          (taggedMessage (if is3d then "player_joined_3d" else "player_joined")
            p.1 p.2)) ∧
    (∀ q wsq, q ≠ C → dlookup q s.active_connections = some wsq →
      (handle_game_message s C
          ⟨some (if is3d then "player_spawn_3d" else "player_spawn"), d⟩).events.filter
          (fun e => decide (evTarget e = some q)) =
        [Ev.sentText q wsq
          (taggedMessage (if is3d then "player_joined_3d" else "player_joined")
            C d)]) ∧
    (∀ p ∈ s.player_data, p.1 ≠ C → ∃ wsq,
      dlookup p.1 s.active_connections = some wsq ∧
      (handle_game_message s C
          ⟨some (if is3d then "player_spawn_3d" else "player_spawn"), d⟩).events.filter
          (fun e => decide (evTarget e = some p.1)) =
        [Ev.sentText p.1 wsq
          (taggedMessage (if is3d then "player_joined_3d" else "player_joined")
            C d)]) := by
  have hcase : (if is3d then "player_spawn_3d" else "player_spawn") = "player_spawn" ∧
      (if is3d then "player_joined_3d" else "player_joined") = "player_joined" ∨
      (if is3d then "player_spawn_3d" else "player_spawn") = "player_spawn_3d" ∧
      (if is3d then "player_joined_3d" else "player_joined") = "player_joined_3d" := by
    cases is3d <;> simp
  have h1 := handle_spawn_ok s C wsC d
    (if is3d then "player_spawn_3d" else "player_spawn")
    (if is3d then "player_joined_3d" else "player_joined") hcase hreg hok
  have h3 : ∀ q wsq, q ≠ C → dlookup q s.active_connections = some wsq →
      (handle_game_message s C
          ⟨some (if is3d then "player_spawn_3d" else "player_spawn"), d⟩).events.filter
          (fun e => decide (evTarget e = some q)) =
        [Ev.sentText q wsq
          (taggedMessage (if is3d then "player_joined_3d" else "player_joined")
            C d)] := by
    intro q wsq hqC hq
    rw [h1]
    simp only [List.filter_append]
    have hA : ((s.player_data.filter (fun p => decide (p.1 ≠ C))).map
        (fun p => Ev.sentText C wsC
          (taggedMessage (if is3d then "player_joined_3d" else "player_joined")
            p.1 p.2))).filter (fun e => decide (evTarget e = some q)) = [] := by
      refine List.filter_eq_nil_iff.mpr ?_
      intro e he
      obtain ⟨p, _, rfl⟩ := List.mem_map.mp he
      simp [evTarget, Ne.symm hqC]
    have hcong : ∀ p ∈ s.active_connections.filter (fun p => decide (p.1 ≠ C)),
        ((fun e => decide (evTarget e = some q)) ∘
          (fun p => Ev.sentText p.1 p.2
            (taggedMessage (if is3d then "player_joined_3d" else "player_joined")
              C d))) p = decide (p.1 = q) := by
      intro p _
      simp [evTarget, Function.comp]
    have hcong2 : ∀ p ∈ s.active_connections,
        (decide (p.1 = q) && decide (p.1 ≠ C)) = decide (p.1 = q) := by
      intro p _
      by_cases hpq : p.1 = q
      · simp [hpq, hqC]
      · simp [hpq]
    rw [hA, List.filter_map, List.filter_congr hcong, List.filter_filter,
      List.filter_congr hcong2, filter_key_eq hnd hq]
    simp
  refine ⟨h1, ?_, h3, ?_⟩
  · rw [h1]
    simp only [List.filter_append]
    have hA : ((s.player_data.filter (fun p => decide (p.1 ≠ C))).map
        (fun p => Ev.sentText C wsC
          (taggedMessage (if is3d then "player_joined_3d" else "player_joined")
            p.1 p.2))).filter (fun e => decide (evTarget e = some C)) =
        (s.player_data.filter (fun p => decide (p.1 ≠ C))).map
        (fun p => Ev.sentText C wsC
          (taggedMessage (if is3d then "player_joined_3d" else "player_joined")
            p.1 p.2)) := by
      refine List.filter_eq_self.mpr ?_
      intro e he
      obtain ⟨p, _, rfl⟩ := List.mem_map.mp he
      simp [evTarget]
    have hB : ((s.active_connections.filter (fun p => decide (p.1 ≠ C))).map
        (fun p => Ev.sentText p.1 p.2
          (taggedMessage (if is3d then "player_joined_3d" else "player_joined")
            C d))).filter (fun e => decide (evTarget e = some C)) = [] := by
      refine List.filter_eq_nil_iff.mpr ?_
      intro e he
      obtain ⟨p, hp, rfl⟩ := List.mem_map.mp he
      have hne := (List.mem_filter.mp hp).2
      simp only [decide_eq_true_eq] at hne
      simp [evTarget, hne]
    rw [hA, hB, List.append_nil]
  · intro p hp hpc
    obtain ⟨wsq, hwsq⟩ := Option.isSome_iff_exists.mp (hpres p hp hpc)
    exact ⟨wsq, hwsq, h3 p.1 wsq hpc hwsq⟩

/-- Witness for C8: on `stOk`, "b" spawns (2-D) with payload `x ↦ 0`;
"a" — the one previously-spawned client — gets exactly the announcement
about "b", and "b" gets exactly the catch-up message about "a". -/
theorem C8_spawn_fanout_witness :
    dlookup "b" stOk.active_connections = some ⟨2, true⟩ ∧
    (∀ p ∈ stOk.active_connections, p.2.ok = true) ∧
    (dkeys stOk.active_connections).Nodup ∧
    (∀ p ∈ stOk.player_data, p.1 ≠ "b" →
      (dlookup p.1 stOk.active_connections).isSome = true) ∧
    (handle_game_message stOk "b"
        ⟨some (if false then "player_spawn_3d" else "player_spawn"),
          [("x", JVal.num 0)]⟩ =
      { state := store_player_data stOk "b" [("x", JVal.num 0)],
        events :=
          (stOk.player_data.filter (fun p => decide (p.1 ≠ "b"))).map
            (fun p => Ev.sentText "b" ⟨2, true⟩
              (taggedMessage (if false then "player_joined_3d" else "player_joined")
                p.1 p.2)) ++
          (stOk.active_connections.filter (fun p => decide (p.1 ≠ "b"))).map
            (fun p => Ev.sentText p.1 p.2
              (taggedMessage (if false then "player_joined_3d" else "player_joined")
                "b" [("x", JVal.num 0)])),
        raised := none } ∧
    (handle_game_message stOk "b"
        ⟨some (if false then "player_spawn_3d" else "player_spawn"),
          [("x", JVal.num 0)]⟩).events.filter
        (fun e => decide (evTarget e = some "b")) =
      (stOk.player_data.filter (fun p => decide (p.1 ≠ "b"))).map
        (fun p => Ev.sentText "b" ⟨2, true⟩
          (taggedMessage (if false then "player_joined_3d" else "player_joined")
            p.1 p.2)) ∧
    (∀ q wsq, q ≠ "b" → dlookup q stOk.active_connections = some wsq →
      (handle_game_message stOk "b"
          ⟨some (if false then "player_spawn_3d" else "player_spawn"),
            [("x", JVal.num 0)]⟩).events.filter
          (fun e => decide (evTarget e = some q)) =
        [Ev.sentText q wsq
          (taggedMessage (if false then "player_joined_3d" else "player_joined")
            "b" [("x", JVal.num 0)])]) ∧
    (∀ p ∈ stOk.player_data, p.1 ≠ "b" → ∃ wsq,
      dlookup p.1 stOk.active_connections = some wsq ∧
      (handle_game_message stOk "b"
          ⟨some (if false then "player_spawn_3d" else "player_spawn"),
            [("x", JVal.num 0)]⟩).events.filter
          (fun e => decide (evTarget e = some p.1)) =
        [Ev.sentText p.1 wsq
          (taggedMessage (if false then "player_joined_3d" else "player_joined")
            "b" [("x", JVal.num 0)])])) :=
  ⟨by decide, by decide, by decide, by decide,
   C8_spawn_fanout stOk "b" ⟨2, true⟩ [("x", JVal.num 0)] false
     (by decide)
     (show ∀ p ∈ stOk.active_connections, p.2.ok = true by decide)
     (by decide) (by decide)⟩

/-- Claim C9: an undecodable frame from client `cid` makes the endpoint
broadcast the chat-style string "Client cid: raw" to every connected
client; when no delivery fails, the state is left completely unchanged —
registry, presence store and rooms, so in particular `cid` stays
connected — and nothing is raised: decode failure is non-fatal. -/
theorem C9_undecodable_frame (s : CMState) (cid : String) (raw : String)
    (hok : allOk s) :
    websocket_message_step s cid { raw := raw, parsed := none } =
      { state := s,
        events := s.active_connections.map
          (fun p => Ev.sentText p.1 p.2
            (OutMsg.raw ("Client " ++ cid ++ ": " ++ raw))),
        raised := none } := by
  simp only [websocket_message_step,
    broadcast_ok s (OutMsg.raw ("Client " ++ cid ++ ": " ++ raw)) hok]

/-- Witness for C9: a garbled frame from "c" on `stOk`. -/
theorem C9_undecodable_frame_witness :
    (∀ p ∈ stOk.active_connections, p.2.ok = true) ∧
    websocket_message_step stOk "c" { raw := "oops", parsed := none } =
      { state := stOk,
        events := stOk.active_connections.map
          (fun p => Ev.sentText p.1 p.2
            (OutMsg.raw ("Client " ++ "c" ++ ": " ++ "oops"))),
        raised := none } :=
  ⟨by decide, C9_undecodable_frame stOk "c" "oops"
    (show ∀ p ∈ stOk.active_connections, p.2.ok = true by decide)⟩

/-- Claim C10: in every reachable state every client occurs at most once in
the city presence list and at most once in each guild channel's membership
list (the lists are duplicate free), and the joins are idempotent: joining
a room already containing the client leaves the state unchanged, so
repeated joins never cause duplicate room-scoped deliveries. -/
theorem C10_no_duplicate_membership (s : CMState) (hs : Reach s) :
    s.city_presence.Nodup ∧
    (∀ gm ∈ s.guild_channels, gm.2.Nodup) ∧
    (∀ cid, cid ∈ s.city_presence → join_city s cid = s) ∧
    (∀ cid g ms, dlookup g s.guild_channels = some ms → cid ∈ ms →
      join_guild_channel s cid g = s) := by
  have hn := reach_nodup hs
  refine ⟨hn.2.2.2.1, hn.2.2.2.2, ?_, ?_⟩
  · intro cid hmem
    rw [join_city, if_pos hmem]
  · intro cid g ms hg hm
    have hch : (if (dlookup g s.guild_channels).isSome = true then s.guild_channels
        else dinsert g [] s.guild_channels) = s.guild_channels := by
      rw [hg]; rfl
    simp only [join_guild_channel]
    rw [hch, hg]
    show (if cid ∈ ms then { s with guild_channels := s.guild_channels }
      else { s with guild_channels := dinsert g (ms ++ [cid]) s.guild_channels }) = s
    rw [if_pos hm]

/-- Witness for C10: the reachable state `stJoined`, with "a" in guild
channel 7 and in the city; re-joining both is a no-op. -/
theorem C10_no_duplicate_membership_witness :
    Reach stJoined ∧
    (stJoined.city_presence.Nodup ∧
    (∀ gm ∈ stJoined.guild_channels, gm.2.Nodup) ∧
    (∀ cid, cid ∈ stJoined.city_presence → join_city stJoined cid = stJoined) ∧
    (∀ cid g ms, dlookup g stJoined.guild_channels = some ms → cid ∈ ms →
      join_guild_channel stJoined cid g = stJoined)) := by
  have hr : Reach stJoined :=
    Reach.join_city_step _ "a"
      (Reach.join_guild_step _ "a" 7
        (Reach.connect_step initState ⟨1, true⟩ "a" Reach.init) (by decide))
      (by decide)
  exact ⟨hr, C10_no_duplicate_membership stJoined hr⟩

end Claims

end Hemoclast
